import Mathlib

/-!
Verification development for the statement-level unparser of the unrpyc
decompiler (`decompiler/__init__.py`).  The data model and the rendering
functions below are a shallow embedding of the Python source: every
`print_*` function is translated from the method of the same name of the
`Decompiler` class.  The base class `DecompilerBase` and the helpers of
`util.py` are not part of the given sources, so those operations (`write`,
`indent`, `advance_to_line`, `print_nodes` driving, `string_escape`,
`split_logical_lines`, `WordConcatenator`) are modelled from the
specification, as marked on each definition.
-/

/-- Errors raised while rendering.  `exception msg` models the plain Python
`Exception` raised by `print_with` on an unmatched paired transition
(the spec calls this a StructuralInconsistency); `indexError` models an
out-of-bounds sequence access (Python `IndexError`). -/
inductive Err where
  | exception (msg : String)
  | indexError
deriving DecidableEq

/-- Tri-state pairing register `self.paired_with`: Python `False` (absent),
a string (armed with that expression), or `True` (consumed). -/
inductive PairedWith where
  | absent
  | armed (expr : String)
  | consumed
deriving DecidableEq

/-- Python truthiness of the `paired_with` register: `False` is falsy, `True`
is truthy, a string is truthy exactly when non-empty. -/
def PairedWith.truthy : PairedWith → Bool
  | .absent => false
  | .armed e => decide (e ≠ "")
  | .consumed => true

/-- Rendering of the register by Python `"%s"` formatting. -/
def PairedWith.str : PairedWith → String
  | .absent => "False"
  | .armed e => e
  | .consumed => "True"

/-- Python `repr` of a string (single quotes, escaping ignored: the
expressions involved contain no quotes). -/
def pyreprStr (x : String) : String := "\x27" ++ x ++ "\x27"

/-- Rendering of the register by Python `repr`. -/
def PairedWith.pyrepr : PairedWith → String
  | .absent => "False"
  | .armed e => pyreprStr e
  | .consumed => "True"

/-- ImageSpec: the 7-tuple `imspec` of the renpy AST, with the field order
used by `print_imspec` (index 0 name parts, 1 expression, 2 alias,
3 at-list, 4 layer, 5 zorder, 6 behind-list). -/
structure ImSpec where
  name : List String
  expression : Option String
  alias_ : Option String
  at_list : List String
  layer : String
  zorder : Option String
  behind : List String

/-- Payload of a renpy `Say` node, as read by `print_say`. -/
structure SayData where
  who : Option String
  what : String
  interact : Bool
  attributes : Option (List String)
  with_ : Option String
  linenumber : Nat

mutual

/-- The statement AST: one constructor per class of the dispatch table of
`Decompiler`, AST statements and ATL (motion-language) statements alike,
plus `Unknown` for the fallback renderer.  Field names and order follow the
renpy attributes read by the corresponding `print_*` method. -/
inductive Node where
  | RawMultipurpose (loc : String × Nat) (warp_function : Option String)
      (warper : Option String) (duration : String) (revolution : Option String)
      (circles : String) (splines : List (String × List String))
      (properties : List (String × String))
      (expressions : List (String × Option String))
  | RawBlock (b : AtlBlock)
  | RawChild (loc : String × Nat) (children : List AtlBlock)
  | RawChoice (loc : String × Nat) (choices : List (String × AtlBlock))
  | RawContainsExpr (loc : String × Nat) (expression : String)
  | RawEvent (loc : String × Nat) (name : String)
  | RawFunction (loc : String × Nat) (expr : String)
  | RawOn (loc : String × Nat) (handlers : List (String × AtlBlock))
  | RawParallel (loc : String × Nat) (blocks : List AtlBlock)
  | RawRepeat (loc : String × Nat) (repeats : Option String)
  | RawTime (loc : String × Nat) (time : String)
  | Image (linenumber : Nat) (imgname : List String) (code : Option String)
      (atl : Option AtlBlock)
  | Transform (linenumber : Nat) (varname : String) (parameters : Option String)
      (atl : Option AtlBlock)
  | Show (linenumber : Nat) (imspec : ImSpec) (atl : Option AtlBlock)
  | ShowLayer (linenumber : Nat) (layer : String) (at_list : List String)
      (atl : Option AtlBlock)
  | Scene (linenumber : Nat) (imspec : Option ImSpec) (layer : String)
      (atl : Option AtlBlock)
  | Hide (linenumber : Nat) (imspec : ImSpec)
  | With (linenumber : Nat) (expr : String) (paired : Option String)
  | Label (linenumber : Nat) (name : String) (parameters : Option String)
      (blk : List Node)
  | Jump (linenumber : Nat) (expression : Bool) (target : String)
  | Call (linenumber : Nat) (expression : Bool) (lbl : String)
      (arguments : Option String)
  | Return (linenumber : Nat) (expression : Option String)
  | If (linenumber : Nat) (entries : List (String × List Node))
  | While (linenumber : Nat) (condition : String) (blk : List Node)
  | Pass (linenumber : Nat)
  | Init (linenumber : Nat) (priority : Int) (blk : List Node)
  | Menu (linenumber : Nat) (items : List (String × String × Option (List Node)))
      (with_ : Option String) (mset : Option String)
  | Python (linenumber : Nat) (code : String) (hide : Bool)
  | EarlyPython (linenumber : Nat) (code : String) (hide : Bool)
  | Define (linenumber : Nat) (store : Option String) (varname : String)
      (code : String)
  | Say (d : SayData)
  | UserStatement (linenumber : Nat) (line : String)
  | Style (linenumber : Nat) (style_name : String) (parent : Option String)
      (clear : Bool) (takes : Option String) (delattr : List String)
      (variant : Option String) (properties : List (String × String))
  | Translate (linenumber : Nat) (language : Option String) (identifier : String)
      (blk : List Node)
  | EndTranslate (linenumber : Nat)
  | TranslateString (linenumber : Nat) (language : Option String)
      (oldstr : String) (newstr : String)
  | TranslateBlock (linenumber : Nat) (language : Option String) (blk : List Node)
  | Screen (linenumber : Nat) (body : String) (endline : Nat)
  | Unknown (tag : String)

/-- A renpy ATL `RawBlock`: a location `(filename, line)` and the list of
contained ATL statements. -/
inductive AtlBlock where
  | mk (loc : String × Nat) (statements : List Node)

end

/-- Location of an ATL block. -/
def AtlBlock.loc : AtlBlock → String × Nat
  | .mk l _ => l

/-- Statements of an ATL block. -/
def AtlBlock.statements : AtlBlock → List Node
  | .mk _ stmts => stmts

/-- TraversalState: output text, output cursor line, indentation depth, the
one-shot indent-suppression flag, configuration flags, the two pending
registers, and the enclosing block plus current index used for neighbour
inspection.  The collection of fields mirrors `DecompilerBase` plus the
`Decompiler` additions (`paired_with`, `say_inside_menu`). -/
structure State where
  out : String
  linenumber : Nat
  indent_level : Nat
  skip_indent_until_write : Bool
  comparable : Bool
  force_multiline_kwargs : Bool
  decompile_python : Bool
  decompile_screencode : Bool
  paired_with : PairedWith
  say_inside_menu : Option SayData
  block : List Node
  index : Nat

/-- Modelled from the spec: `write(text)` appends literal text, never
inserting whitespace; the output cursor line advances with each emitted
newline and the one-shot skip flag is cleared (it suppresses indenting
"until write"). -/
def write (s : State) (t : String) : State :=
  { s with out := s.out ++ t,
           linenumber := s.linenumber + t.toList.count '\n',
           skip_indent_until_write := false }

/-- Whether the output is currently at the start of a line (empty output or
a final newline). -/
def at_line_start (s : State) : Bool :=
  match s.out.toList.getLast? with
  | none => true
  | some c => c = '\n'

/-- Modelled from the spec: `indent()` emits a newline (when not already at
line start) followed by `depth` copies of the four-space indentation unit;
the one-shot `skip_indent_until_write` flag suppresses this entirely. -/
def indent (s : State) : State :=
  if s.skip_indent_until_write then { s with skip_indent_until_write := false }
  else
    let s := if at_line_start s then s else write s "\n"
    write s (String.join (List.replicate s.indent_level "    "))

/-- Modelled from the spec: `advance_to_line(target)` only updates the
cursor bookkeeping in comparable mode; otherwise, when the cursor is behind
the target, it emits the intervening blank lines (clamped to a small bound,
2 here) and sets the cursor to the target. -/
def advance_to_line (s : State) (target : Nat) : State :=
  if s.comparable then { s with linenumber := target }
  else if s.linenumber < target then
    { write s (String.join (List.replicate (min (target - s.linenumber - 1) 2) "\n"))
      with linenumber := target }
  else s

/-- Modelled from the spec: the `WordConcatenator` join, gluing the
non-empty fragments with single spaces. -/
def word_join (ws : List String) : String :=
  String.intercalate " " (ws.filter (fun w => w ≠ ""))

/-- Escape one character for embedding in a quoted literal (modelled from
the spec: backslash, double quote, and the interpolation markers, the
latter doubled as the target grammar requires). -/
def string_escape_char (c : Char) : String :=
  if c = '\\' then "\\\\"
  else if c = '"' then "\\\""
  else if c = Char.ofNat 123 then String.mk [Char.ofNat 123, Char.ofNat 123]
  else if c = '[' then "[["
  else String.singleton c

/-- Modelled from the spec: `string_escape` applied characterwise. -/
def string_escape (t : String) : String :=
  String.join (t.toList.map string_escape_char)

/-- Modelled from the spec: `reconstruct_paraminfo`; the parameter
declaration is carried as its already-reconstructed text (including the
parentheses), an absent one contributes the empty string. -/
def reconstruct_paraminfo : Option String → String
  | none => ""
  | some t => t

/-- Modelled from the spec: `reconstruct_arginfo`, carried likewise as its
reconstructed text. -/
def reconstruct_arginfo : Option String → String
  | none => ""
  | some t => t

/-- Modelled from the spec: `split_logical_lines` splits an embedded code
blob at top-level statement boundaries only, so a newline splits exactly
when it is outside every bracket pair and string literal. -/
def split_logical_lines_go : List Char → Nat → Option Char → List Char →
    List String → List String
  | [], _, _, acc, lines => lines ++ [String.mk acc.reverse]
  | c :: rest, depth, some q, acc, lines =>
      if c = '\\' then
        match rest with
        | d :: rest2 => split_logical_lines_go rest2 depth (some q) (d :: c :: acc) lines
        | [] => split_logical_lines_go [] depth (some q) (c :: acc) lines
      else if c = q then split_logical_lines_go rest depth none (c :: acc) lines
      else split_logical_lines_go rest depth (some q) (c :: acc) lines
  | c :: rest, depth, none, acc, lines =>
      if c = '\n' && depth = 0 then
        split_logical_lines_go rest depth none [] (lines ++ [String.mk acc.reverse])
      else if c = '(' || c = '[' || c = Char.ofNat 123 then
        split_logical_lines_go rest (depth + 1) none (c :: acc) lines
      else if c = ')' || c = ']' || c = Char.ofNat 125 then
        split_logical_lines_go rest (depth - 1) none (c :: acc) lines
      else if c = '"' || c = Char.ofNat 39 then
        split_logical_lines_go rest depth (some c) (c :: acc) lines
      else split_logical_lines_go rest depth none (c :: acc) lines

/-- Modelled from the spec: see `split_logical_lines_go`. -/
def split_logical_lines (code : String) : List String :=
  split_logical_lines_go code.toList 0 none [] []

/-- Effective source line of a node for `should_come_before` and the
single-child comparison of `print_init` (renpy `.linenumber`, or the line of
the `loc` pair for ATL statements). -/
def nodeLinenumber : Node → Nat
  | .RawMultipurpose loc .. => loc.2
  | .RawBlock b => b.loc.2
  | .RawChild loc .. => loc.2
  | .RawChoice loc .. => loc.2
  | .RawContainsExpr loc .. => loc.2
  | .RawEvent loc .. => loc.2
  | .RawFunction loc .. => loc.2
  | .RawOn loc .. => loc.2
  | .RawParallel loc .. => loc.2
  | .RawRepeat loc .. => loc.2
  | .RawTime loc .. => loc.2
  | .Image ln .. => ln
  | .Transform ln .. => ln
  | .Show ln .. => ln
  | .ShowLayer ln .. => ln
  | .Scene ln .. => ln
  | .Hide ln .. => ln
  | .With ln .. => ln
  | .Label ln .. => ln
  | .Jump ln .. => ln
  | .Call ln .. => ln
  | .Return ln .. => ln
  | .If ln .. => ln
  | .While ln .. => ln
  | .Pass ln => ln
  | .Init ln .. => ln
  | .Menu ln .. => ln
  | .Python ln .. => ln
  | .EarlyPython ln .. => ln
  | .Define ln .. => ln
  | .Say d => d.linenumber
  | .UserStatement ln .. => ln
  | .Style ln .. => ln
  | .Translate ln .. => ln
  | .EndTranslate ln => ln
  | .TranslateString ln .. => ln
  | .TranslateBlock ln .. => ln
  | .Screen ln .. => ln
  | .Unknown _ => 0

/-- Line `print_node` advances to before dispatching: the node linenumber,
except that `TranslateString` advances inside its own renderer and a
`RawBlock` is never advanced to (its loc points into the block). -/
def node_advance_line : Node → Option Nat
  | .RawBlock _ => none
  | .TranslateString .. => none
  | .Unknown _ => none
  | n => some (nodeLinenumber n)

/-- Translation of `Decompiler.should_come_before` (source lines 421-422). -/
def should_come_before (comparable : Bool) (first second : Node) : Bool :=
  comparable && decide (nodeLinenumber first < nodeLinenumber second)

/-- Translation of `Decompiler.print_imspec`: writes the ordered optional
clauses and reports whether the text written ends with a space (trailing
space of the final at-expression).  Python raises IndexError when the final
at-expression is the empty string, from `imspec[3][-1][-1]`. -/
def print_imspec (spec : ImSpec) (s : State) : Except Err (State × Bool) :=
  let s := match spec.expression with
    | some e => write s ("expression " ++ e)
    | none => write s (String.intercalate " " spec.name)
  let s := match spec.alias_ with
    | some a => write s (" as " ++ a)
    | none => s
  let s := if spec.behind.length > 0
    then write s (" behind " ++ String.intercalate ", " spec.behind) else s
  let s := if spec.layer ≠ "master" then write s (" onlayer " ++ spec.layer) else s
  let s := match spec.zorder with
    | some z => write s (" zorder " ++ z)
    | none => s
  if spec.at_list.length > 0 then
    let s := write s (" at " ++ String.intercalate ", " spec.at_list)
    match spec.at_list.getLast? with
    | some lastExpr =>
        if lastExpr = "" then .error .indexError
        else .ok (s, lastExpr.back = ' ')
    | none => .error .indexError
  else .ok (s, false)

/-- Non-deferring rendering path of `Decompiler.print_say` (source lines
541-548): speaker prefix, quoted escaped text, `nointeract` suffix, and a
trailing `with` clause. -/
def print_say_render (d : SayData) (inmenu : Bool) (s : State) : State :=
  let s := indent s
  let s := match d.who with
    | some w => write s (w ++ " ")
    | none => s
  let s := write s ("\"" ++ string_escape d.what ++ "\"")
  let s := if !d.interact && !inmenu then write s " nointeract" else s
  match d.with_ with
  | some w => write s (" with " ++ w)
  | none => s

/-- Translation of `Decompiler.print_say` (source lines 531-549): the node
defers itself into `say_inside_menu` when interaction is off, it is not in a
menu, it has a speaker, no with-clause and no attributes, and the following
sibling is a menu whose first item has a non-None block, subject to
`should_come_before`; accessing the first item of an empty menu raises. -/
def print_say (d : SayData) (inmenu : Bool) (s : State) : Except Err State :=
  if !d.interact && !inmenu && d.who.isSome && d.with_.isNone
      && d.attributes.isNone && decide (s.index + 1 < s.block.length) then
    match s.block.get? (s.index + 1) with
    | some (.Menu mln items mwith msetv) =>
        match items.head? with
        | none => .error .indexError
        | some (_, _, blk) =>
            if blk.isSome
                && !(should_come_before s.comparable (.Say d)
                      (.Menu mln items mwith msetv)) then
              .ok { s with say_inside_menu := some d }
            else .ok (print_say_render d inmenu s)
    | _ => .ok (print_say_render d inmenu s)
  else .ok (print_say_render d inmenu s)

/-- Translation of `Decompiler.print_with` (source lines 328-350): a paired
transition checks the sibling at index+2 and arms the register; otherwise a
truthy register is resolved (writing the expression inline unless already
consumed) and an ordinary transition renders a standalone line. -/
def print_with (expr : String) (paired : Option String) (s : State) :
    Except Err State :=
  match paired with
  | some p =>
      match s.block.get? (s.index + 2) with
      | none => .error .indexError
      | some (.With _ e2 _) =>
          if e2 = p then .ok { s with paired_with := .armed p }
          else .error (.exception ("Unmatched paired with "
            ++ s.paired_with.pyrepr ++ " != " ++ pyreprStr expr))
      | some _ => .error (.exception ("Unmatched paired with "
            ++ s.paired_with.pyrepr ++ " != " ++ pyreprStr expr))
  | none =>
      if s.paired_with.truthy then
        let s := match s.paired_with with
          | .armed _ => write s (" with " ++ expr)
          | _ => s
        .ok { s with paired_with := .absent }
      else
        let s := write (indent s) ("with " ++ expr)
        .ok { s with paired_with := .absent }

/-- Translation of `Decompiler.print_hide` (source lines 322-326). -/
def print_hide (spec : ImSpec) (s : State) : Except Err State := do
  let s := write (indent s) "hide "
  let (s, _) ← print_imspec spec s
  .ok s

/-- Translation of `Decompiler.print_python` (source lines 494-515),
with the `early` flag of `print_earlypython`: inspects the first character
of the raw code source (out of bounds on an empty source), rendering a
multi-line block when it is a newline and `$ code` otherwise. -/
def print_python (code : String) (hide : Bool) (early : Bool) (s : State) :
    Except Err State :=
  let s := indent s
  if code = "" then .error .indexError
  else if code.front = '\n' then
    let code := code.drop 1
    let s := write s "python"
    let s := if early then write s " early" else s
    let s := if hide then write s " hide" else s
    let s := write s ":"
    let s := { s with indent_level := s.indent_level + 1 }
    let s := (split_logical_lines code).foldl (fun s ln => write (indent s) ln) s
    .ok { s with indent_level := s.indent_level - 1 }
  else .ok (write s ("$ " ++ code))

/-- Translation of `Decompiler.print_define` (source lines 521-527). -/
def print_define (store : Option String) (varname : String) (code : String)
    (s : State) : State :=
  let s := indent s
  match store with
  | none => write s ("define " ++ varname ++ " = " ++ code)
  | some st =>
      if st = "store" then write s ("define " ++ varname ++ " = " ++ code)
      else write s ("define " ++ st ++ "." ++ varname ++ " = " ++ code)

/-- Translation of `Decompiler.print_jump` (source lines 363-370). -/
def print_jump (expression : Bool) (target : String) (s : State) : State :=
  let s := write (indent s) "jump "
  if expression then write s ("expression " ++ target) else write s target

/-- Translation of `Decompiler.print_call` (source lines 372-384). -/
def print_call (expression : Bool) (lbl : String) (arguments : Option String)
    (s : State) : State :=
  let s := write (indent s) "call "
  let s := if expression then write s ("expression " ++ lbl) else write s lbl
  match arguments with
  | some args =>
      let s := if expression then write s " pass " else s
      write s (reconstruct_arginfo (some args))
  | none => s

/-- Translation of `Decompiler.print_return` (source lines 386-392). -/
def print_return (expression : Option String) (s : State) : State :=
  let s := write (indent s) "return"
  match expression with
  | some e => write s (" " ++ e)
  | none => s

/-- Whether a possible node is a `Call` (neighbour test of `print_label`
and `print_pass`). -/
def isCallNode : Option Node → Bool
  | some (.Call ..) => true
  | _ => false

/-- Translation of `Decompiler.print_pass` (source lines 414-419). -/
def print_pass (s : State) : State :=
  if !(decide (s.index ≠ 0) && isCallNode (s.block.get? (s.index - 1))) then
    write (indent s) "pass"
  else s

/-- Translation of `Decompiler.print_userstatement` (source lines 551-554). -/
def print_userstatement (line : String) (s : State) : State :=
  write (indent s) line

/-- Translation of `Decompiler.print_style` (source lines 556-584): the
clause list is built in order (parent, clear, take, del entries, variant,
then the property map in its storage order); comparable mode space-joins the
clauses on the header line, otherwise each clause goes on an indented line. -/
def print_style (style_name : String) (parent : Option String) (clear : Bool)
    (takes : Option String) (delattr : List String) (variant : Option String)
    (properties : List (String × String)) (s : State) : State :=
  let s := write (indent s) ("style " ++ style_name)
  let kwargs : List String :=
    (match parent with | some p => ["is " ++ p] | none => [])
    ++ (if clear then ["clear"] else [])
    ++ (match takes with | some t => ["take " ++ t] | none => [])
    ++ delattr.map (fun d => "del " ++ d)
    ++ (match variant with | some v => ["variant " ++ v] | none => [])
    ++ properties.map (fun kv => kv.1 ++ " " ++ kv.2)
  if s.comparable then write s (" " ++ String.intercalate " " kwargs)
  else
    let s := write s ":"
    let s := { s with indent_level := s.indent_level + 1 }
    let s := kwargs.foldl (fun s kw => write (indent s) kw) s
    { s with indent_level := s.indent_level - 1 }

/-- Whether a possible node is a `TranslateString` of the given language
(neighbour test of `print_translatestring` and grouping test of
`print_init`). -/
def isTranslateStringLang (language : Option String) : Option Node → Bool
  | some (.TranslateString _ lang _ _) => decide (lang = language)
  | _ => false

/-- Translation of `Decompiler.print_translatestring` (source lines
600-619): emits the `translate <lang> strings:` header unless the previous
sibling already opened the same-language group, then advances to its own
line and writes the old/new pair one level deeper. -/
def print_translatestring (linenumber : Nat) (language : Option String)
    (oldstr : String) (newstr : String) (s : State) : State :=
  let s :=
    if !(decide (s.index ≠ 0)
        && isTranslateStringLang language (s.block.get? (s.index - 1))) then
      write (indent s) ("translate " ++ language.getD "None" ++ " strings:")
    else s
  let s := advance_to_line s linenumber
  let s := { s with indent_level := s.indent_level + 1 }
  let s := write (indent s) ("old \"" ++ string_escape oldstr ++ "\"")
  let s := write (indent s) ("new \"" ++ string_escape newstr ++ "\"")
  { s with indent_level := s.indent_level - 1 }

/-- Modelled from the spec: `print_screen` delegates to an external
UI-layout sub-unparser which writes to the stream and returns the updated
line cursor; the node carries that rendered body and resulting cursor.  The
skip-indent flag is reset after the delegation (source lines 631-648). -/
def print_screen (body : String) (endline : Nat) (s : State) : State :=
  { s with out := s.out ++ body, linenumber := endline,
           skip_indent_until_write := false }

/-- Modelled from the spec: the fallback renderer for unknown variants
emits a clearly tagged placeholder carrying the variant tag. -/
def print_unknown (tag : String) (s : State) : State :=
  write (indent s) ("<<<UnrecognizedVariant " ++ tag ++ ">>>")

/-- Translation of `Decompiler.print_atl_rawmulti` (source lines 110-147):
one line of space-joined optional fragments. -/
def print_atl_rawmulti (warp_function : Option String) (warper : Option String)
    (duration : String) (revolution : Option String) (circles : String)
    (splines : List (String × List String)) (properties : List (String × String))
    (expressions : List (String × Option String)) (s : State) : State :=
  let words : List String :=
    (match warp_function with
     | some wf => ["warp", wf, duration]
     | none =>
        match warper with
        | some w => [w, duration]
        | none => if duration ≠ "0" then ["pause", duration] else [])
    ++ (match revolution with | some r => [r] | none => [])
    ++ (if circles ≠ "0" then ["circles", circles] else [])
    ++ splines.flatMap (fun sp => sp.1 :: sp.2.flatMap (fun e => ["knot", e]))
    ++ properties.flatMap (fun kv => [kv.1, kv.2])
    ++ expressions.flatMap (fun ew =>
        ew.1 :: (match ew.2 with | some w => ["with", w] | none => []))
  write (indent s) (word_join words)

/-- Translation of `Decompiler.print_atl_rawcontainsexpr` (lines 172-175). -/
def print_atl_rawcontainsexpr (expression : String) (s : State) : State :=
  write (indent s) ("contains " ++ expression)

/-- Translation of `Decompiler.print_atl_rawevent` (lines 177-180). -/
def print_atl_rawevent (name : String) (s : State) : State :=
  write (indent s) ("event " ++ name)

/-- Translation of `Decompiler.print_atl_rawfunction` (lines 182-185). -/
def print_atl_rawfunction (expr : String) (s : State) : State :=
  write (indent s) ("function " ++ expr)

/-- Translation of `Decompiler.print_atl_rawrepeat` (lines 206-211). -/
def print_atl_rawrepeat (repeats : Option String) (s : State) : State :=
  let s := write (indent s) "repeat"
  match repeats with
  | some r => write s (" " ++ r)
  | none => s

/-- Translation of `Decompiler.print_atl_rawtime` (lines 213-216). -/
def print_atl_rawtime (time : String) (s : State) : State :=
  write (indent s) ("time " ++ time)

/-- Whether a node is a renpy `Screen` declaration. -/
def isScreenNode : Node → Bool
  | .Screen .. => true
  | _ => false

/-- Whether a node is a `Define`, `Transform` or `Style` declaration. -/
def isDefineTransformStyleNode : Node → Bool
  | .Define .. => true
  | .Transform .. => true
  | .Style .. => true
  | _ => false

/-- Whether a node is an `Image` declaration. -/
def isImageNode : Node → Bool
  | .Image .. => true
  | _ => false

/-- Whether a node is a `TranslateString`. -/
def isTranslateStringNode : Node → Bool
  | .TranslateString .. => true
  | _ => false

/-- Language of a `TranslateString` node. -/
def tsLanguage : Node → Option String
  | .TranslateString _ lang _ _ => lang
  | _ => none

/-- First branch condition of `Decompiler.print_init` (source lines
427-433): exactly one child of the matching well-known kind/priority and no
`should_come_before` violation. -/
def init_collapsible (comparable : Bool) (linenumber : Nat) (priority : Int)
    (blk : List Node) : Bool :=
  match blk with
  | [c] =>
      ((decide (priority = -500) && isScreenNode c)
        || (decide (priority = 0) && isDefineTransformStyleNode c)
        || (decide (priority = 990) && isImageNode c))
      && !(should_come_before comparable (.Init linenumber priority [c]) c)
  | _ => false

/-- Second branch condition of `Decompiler.print_init` (source lines
438-441): a non-empty priority-0 block of `TranslateString` nodes all of
the first child's language. -/
def init_is_translatestrings (priority : Int) (blk : List Node) : Bool :=
  match blk with
  | [] => false
  | c :: rest =>
      decide (priority = 0) && isTranslateStringNode c
      && rest.all (fun n =>
          isTranslateStringNode n && decide (tsLanguage n = tsLanguage c))

/-- The sizeOf of a list is invariant under permutation (used for the
termination of `print_atl_rawon`, which recurses over a sorted copy of its
handler list). -/
theorem perm_sizeOf_eq {α : Type} [SizeOf α] {l1 l2 : List α}
    (h : l1.Perm l2) : sizeOf l1 = sizeOf l2 := by
  induction h with
  | nil => rfl
  | cons x _ ih => simp only [List.cons.sizeOf_spec]; omega
  | swap x y l => simp only [List.cons.sizeOf_spec]; omega
  | trans _ _ ih1 ih2 => omega

/-- Comparison used to model Python `sorted(..., key=lambda i: i[1].loc[1])`
in `print_atl_rawon` (stable, ascending by handler block line). -/
def rawonLe (a b : String × AtlBlock) : Bool :=
  decide (a.2.loc.2 ≤ b.2.loc.2)

/-- The register-consumption step shared verbatim by `print_show` (source
lines 276-280) and `print_scene` (source lines 311-315): when the pairing
register is truthy, write a separating space if needed, write
`with <register>` inline, and set the register to consumed (`True`). -/
def consume_paired_with (needs_space : Bool) (s : State) : State :=
  if s.paired_with.truthy then
    let s2 := if needs_space then write s " " else s
    let s2 := write s2 ("with " ++ s.paired_with.str)
    { s2 with paired_with := .consumed }
  else s

set_option maxHeartbeats 3200000

mutual

/-- Translation of `Decompiler.print_node` (source lines 74-89) plus the
driving of `print_nodes` modelled from the spec: advance to the node's
effective source line (with the `TranslateString` and ATL `RawBlock`
exceptions), then dispatch on the node variant. -/
def print_node (n : Node) (s : State) : Except Err State :=
  let s := match node_advance_line n with
    | some ln => advance_to_line s ln
    | none => s
  match n with
  | .RawMultipurpose _ wf w dur rev circ sp pr ex =>
      .ok (print_atl_rawmulti wf w dur rev circ sp pr ex s)
  | .RawBlock b => print_atl_rawblock b s
  | .RawChild _ children => print_atl_rawchild children s
  | .RawChoice _ choices => print_atl_rawchoice choices s
  | .RawContainsExpr _ e => .ok (print_atl_rawcontainsexpr e s)
  | .RawEvent _ nm => .ok (print_atl_rawevent nm s)
  | .RawFunction _ e => .ok (print_atl_rawfunction e s)
  | .RawOn _ handlers => print_atl_rawon handlers s
  | .RawParallel _ blocks => print_atl_rawparallel blocks s
  | .RawRepeat _ r => .ok (print_atl_rawrepeat r s)
  | .RawTime _ t => .ok (print_atl_rawtime t s)
  | .Image _ imgname code atl => print_image imgname code atl s
  | .Transform _ varname params atl => print_transform varname params atl s
  | .Show _ spec atl => print_show spec atl s
  | .ShowLayer _ layer at_list atl => print_showlayer layer at_list atl s
  | .Scene _ spec layer atl => print_scene spec layer atl s
  | .Hide _ spec => print_hide spec s
  | .With _ expr paired => print_with expr paired s
  | .Label _ nm params blk => print_label nm params blk s
  | .Jump _ e target => .ok (print_jump e target s)
  | .Call _ e lbl args => .ok (print_call e lbl args s)
  | .Return _ e => .ok (print_return e s)
  | .If _ entries => print_if entries s
  | .While _ cond blk => print_while cond blk s
  | .Pass _ => .ok (print_pass s)
  | .Init ln priority blk => print_init ln priority blk s
  | .Menu _ items mwith msetv => print_menu items mwith msetv s
  | .Python _ code hide => print_python code hide false s
  | .EarlyPython _ code hide => print_python code hide true s
  | .Define _ store varname code => .ok (print_define store varname code s)
  | .Say d => print_say d false s
  | .UserStatement _ line => .ok (print_userstatement line s)
  | .Style _ nm parent clear takes delattr variant props =>
      .ok (print_style nm parent clear takes delattr variant props s)
  | .Translate _ language identifier blk =>
      print_translate language identifier blk s
  | .EndTranslate _ => .ok s
  | .TranslateString ln language oldstr newstr =>
      .ok (print_translatestring ln language oldstr newstr s)
  | .TranslateBlock _ language blk => print_translateblock language blk s
  | .Screen _ body endline => .ok (print_screen body endline s)
  | .Unknown tag => .ok (print_unknown tag s)
termination_by (sizeOf n, 0)

/-- Modelled from the spec: the block driver raises the indentation depth by
`extra_indent`, exposes the block and running index to the renderers, prints
every node in order, then restores block, index and depth. -/
def print_nodes (blk : List Node) (extra_indent : Nat) (s : State) :
    Except Err State := do
  let s1 := { s with indent_level := s.indent_level + extra_indent, block := blk }
  let s2 ← print_nodes_list blk 0 s1
  .ok { s2 with block := s.block, index := s.index,
                indent_level := s2.indent_level - extra_indent }
termination_by (sizeOf blk, 2)

/-- Worker of `print_nodes`: prints the remaining nodes, the running index
into the full block being maintained in the state. -/
def print_nodes_list (l : List Node) (i : Nat) (s : State) : Except Err State :=
  match l with
  | [] => .ok s
  | n :: rest => do
      let s ← print_node n { s with index := i }
      print_nodes_list rest (i + 1) s
termination_by (sizeOf l, 1)

/-- Translation of `Decompiler.print_atl` (source lines 97-108): advance to
the block's recorded line, render its statements one level deeper, an empty
block rendering `pass` unless comparable mode and the `('', 0)` sentinel
location coincide. -/
def print_atl (b : AtlBlock) (s : State) : Except Err State :=
  match b with
  | .mk loc stmts =>
      let s := advance_to_line s loc.2
      let s := { s with indent_level := s.indent_level + 1 }
      match stmts with
      | [] =>
          let s := if !s.comparable || decide (loc ≠ ("", 0))
            then write (indent s) "pass" else s
          .ok { s with indent_level := s.indent_level - 1 }
      | c :: rest => do
          let s ← print_nodes (c :: rest) 0 s
          .ok { s with indent_level := s.indent_level - 1 }
termination_by (sizeOf b, 1)

/-- Translation of `Decompiler.print_atl_rawblock` (source lines 149-153). -/
def print_atl_rawblock (b : AtlBlock) (s : State) : Except Err State :=
  print_atl b (write (indent s) "block:")
termination_by (sizeOf b, 2)

/-- Translation of `Decompiler.print_atl_rawchild` (source lines 155-160). -/
def print_atl_rawchild (children : List AtlBlock) (s : State) :
    Except Err State :=
  match children with
  | [] => .ok s
  | child :: rest => do
      let s := write (indent s) "contains:"
      let s ← print_atl child s
      print_atl_rawchild rest s
termination_by (sizeOf children, 0)

/-- Translation of `Decompiler.print_atl_rawchoice` (source lines 162-170). -/
def print_atl_rawchoice (choices : List (String × AtlBlock)) (s : State) :
    Except Err State :=
  match choices with
  | [] => .ok s
  | (chance, blk) :: rest => do
      let s := write (indent s) "choice"
      let s := if chance ≠ "1.0" then write s (" " ++ chance) else s
      let s := write s ":"
      let s ← print_atl blk s
      print_atl_rawchoice rest s
termination_by (sizeOf choices, 0)

/-- Translation of `Decompiler.print_atl_rawon` (source lines 187-197): in
comparable mode the handlers are iterated sorted by their block's recorded
line, otherwise in storage order. -/
def print_atl_rawon (handlers : List (String × AtlBlock)) (s : State) :
    Except Err State :=
  let evs := if s.comparable then handlers.mergeSort rawonLe else handlers
  print_atl_rawon_list evs s
termination_by (sizeOf handlers, 3)
decreasing_by
  simp_wf
  have hsz : sizeOf (if s.comparable = true then handlers.mergeSort rawonLe
      else handlers) = sizeOf handlers := by
    split
    · exact perm_sizeOf_eq (List.mergeSort_perm handlers rawonLe)
    · rfl
  rw [hsz]
  exact Prod.Lex.right _ (by omega)

/-- Worker of `print_atl_rawon`: renders each `on <event>:` handler. -/
def print_atl_rawon_list (evs : List (String × AtlBlock)) (s : State) :
    Except Err State :=
  match evs with
  | [] => .ok s
  | (nm, blk) :: rest => do
      let s := write (indent s) ("on " ++ nm ++ ":")
      let s ← print_atl blk s
      print_atl_rawon_list rest s
termination_by (sizeOf evs, 2)

/-- Translation of `Decompiler.print_atl_rawparallel` (source lines
199-204). -/
def print_atl_rawparallel (blocks : List AtlBlock) (s : State) :
    Except Err State :=
  match blocks with
  | [] => .ok s
  | blk :: rest => do
      let s := write (indent s) "parallel:"
      let s ← print_atl blk s
      print_atl_rawparallel rest s
termination_by (sizeOf blocks, 0)

/-- Translation of `Decompiler.print_image` (source lines 247-256). -/
def print_image (imgname : List String) (code : Option String)
    (atl : Option AtlBlock) (s : State) : Except Err State :=
  let s := write (indent s) ("image " ++ String.intercalate " " imgname)
  match code with
  | some c => .ok (write s (" = " ++ c))
  | none =>
      match atl with
      | some b => print_atl b (write s ":")
      | none => .ok s
termination_by (sizeOf atl, 0)

/-- Translation of `Decompiler.print_transform` (source lines 258-267). -/
def print_transform (varname : String) (parameters : Option String)
    (atl : Option AtlBlock) (s : State) : Except Err State :=
  let s := write (indent s) ("transform " ++ varname)
  let s := match parameters with
    | some _ => write s (reconstruct_paraminfo parameters)
    | none => s
  match atl with
  | some b => print_atl b (write s ":")
  | none => .ok s
termination_by (sizeOf atl, 0)

/-- Translation of `Decompiler.print_show` (source lines 271-285): imspec,
then consumption of a truthy pairing register (writing `with <register>`
inline and marking it consumed), then an optional ATL block. -/
def print_show (spec : ImSpec) (atl : Option AtlBlock) (s : State) :
    Except Err State := do
  let s := write (indent s) "show "
  let (s, trailing) ← print_imspec spec s
  let s := consume_paired_with (!trailing) s
  match atl with
  | some b => print_atl b (write s ":")
  | none => .ok s
termination_by (sizeOf atl, 0)

/-- Translation of `Decompiler.print_showlayer` (source lines 287-297). -/
def print_showlayer (layer : String) (at_list : List String)
    (atl : Option AtlBlock) (s : State) : Except Err State :=
  let s := write (indent s) ("show layer " ++ layer)
  let s := if !at_list.isEmpty
    then write s (" at " ++ String.intercalate ", " at_list) else s
  match atl with
  | some b => print_atl b (write s ":")
  | none => .ok s
termination_by (sizeOf atl, 0)

/-- Translation of `Decompiler.print_scene` (source lines 299-320). -/
def print_scene (spec : Option ImSpec) (layer : String)
    (atl : Option AtlBlock) (s : State) : Except Err State := do
  let s := write (indent s) "scene"
  let (s, needs_space) ←
    match spec with
    | none =>
        let s := if layer ≠ "master" then write s (" onlayer " ++ layer) else s
        pure (s, true)
    | some sp => do
        let s := write s " "
        let (s, trailing) ← print_imspec sp s
        pure (s, !trailing)
  let s := consume_paired_with needs_space s
  match atl with
  | some b => print_atl b (write s ":")
  | none => .ok s
termination_by (sizeOf atl, 0)

/-- Translation of `Decompiler.print_label` (source lines 354-361): a label
directly after a `Call` sibling renders as a ` from <name>` suffix on the
call line; otherwise a full label header with its block. -/
def print_label (nm : String) (parameters : Option String) (blk : List Node)
    (s : State) : Except Err State :=
  if decide (s.index ≠ 0) && isCallNode (s.block.get? (s.index - 1)) then
    .ok (write s (" from " ++ nm))
  else
    let s := write (indent s)
      ("label " ++ nm ++ reconstruct_paraminfo parameters ++ ":")
    print_nodes blk 1 s
termination_by (sizeOf blk, 3)

/-- Translation of `Decompiler.print_if` (source lines 394-405). -/
def print_if (entries : List (String × List Node)) (s : State) :
    Except Err State :=
  print_if_entries entries false s
termination_by (sizeOf entries, 3)

/-- Worker of `print_if`: `firstUsed` models the `First("if %s:", "elif %s:")`
helper having been consumed; a final entry with condition stripping to
"True" renders as `else:` without consuming it. -/
def print_if_entries (entries : List (String × List Node)) (firstUsed : Bool)
    (s : State) : Except Err State :=
  match entries with
  | [] => .ok s
  | (condition, blk) :: rest => do
      let s := indent s
      let sf : State × Bool :=
        if rest.isEmpty && condition.trim = "True" then
          (write s "else:", firstUsed)
        else if !firstUsed then (write s ("if " ++ condition ++ ":"), true)
        else (write s ("elif " ++ condition ++ ":"), true)
      let s ← print_nodes blk 1 sf.1
      print_if_entries rest sf.2 s
termination_by (sizeOf entries, 2)

/-- Translation of `Decompiler.print_while` (source lines 407-412). -/
def print_while (condition : String) (blk : List Node) (s : State) :
    Except Err State :=
  let s := write (indent s) ("while " ++ condition ++ ":")
  print_nodes blk 1 s
termination_by (sizeOf blk, 3)

/-- Translation of `Decompiler.print_init` (source lines 424-458): implicit
wrapper collapsing for the well-known kinds, grouping of split
`TranslateString` runs, otherwise the explicit form (inline when the single
child's recorded line does not exceed the wrapper's). -/
def print_init (linenumber : Nat) (priority : Int) (blk : List Node)
    (s : State) : Except Err State :=
  if init_collapsible s.comparable linenumber priority blk then
    print_nodes blk 0 s
  else if init_is_translatestrings priority blk then
    print_nodes blk 0 s
  else
    let s := indent s
    let s := write s "init"
    let s := if priority ≠ 0 then write s (" " ++ toString priority) else s
    match blk with
    | [c] =>
        if linenumber ≥ nodeLinenumber c then
          let s := write s " "
          print_nodes [c] 0 { s with skip_indent_until_write := true }
        else print_nodes [c] 1 (write s ":")
    | other => print_nodes other 1 (write s ":")
termination_by (sizeOf blk, 3)

/-- Translation of `Decompiler.print_menu` (source lines 460-490): menu
header, a deferred dialogue node rendered first inside the body (clearing
the register), the optional with/set clauses, then the choice entries. -/
def print_menu (items : List (String × String × Option (List Node)))
    (mwith : Option String) (msetv : Option String) (s : State) :
    Except Err State := do
  let s := write (indent s) "menu:"
  let s := { s with indent_level := s.indent_level + 1 }
  let s ← match s.say_inside_menu with
    | some d => do
        let s ← print_say d true s
        pure { s with say_inside_menu := none }
    | none => pure s
  let s := match mwith with
    | some w => write (indent s) ("with " ++ w)
    | none => s
  let s := match msetv with
    | some st => write (indent s) ("set " ++ st)
    | none => s
  let s ← print_menu_items items s
  .ok { s with indent_level := s.indent_level - 1 }
termination_by (sizeOf items, 3)

/-- Worker of `print_menu` (source lines 477-487): each entry writes its
quoted escaped label; only an entry with a present block also writes the
optional `if <condition>` guard, the colon, and its sub-block. -/
def print_menu_items (items : List (String × String × Option (List Node)))
    (s : State) : Except Err State :=
  match items with
  | [] => .ok s
  | (label, condition, blk) :: rest => do
      let s := write (indent s) ("\"" ++ string_escape label ++ "\"")
      let s ←
        match blk with
        | some b =>
            let s := if condition ≠ "True" then write s (" if " ++ condition)
              else s
            print_nodes b 1 (write s ":")
        | none => pure s
      print_menu_items rest s
termination_by (sizeOf items, 2)

/-- Translation of `Decompiler.print_translate` (source lines 588-593). -/
def print_translate (language : Option String) (identifier : String)
    (blk : List Node) (s : State) : Except Err State :=
  let s := write (indent s)
    ("translate " ++ language.getD "None" ++ " " ++ identifier ++ ":")
  print_nodes blk 1 s
termination_by (sizeOf blk, 3)

/-- Translation of `Decompiler.print_translateblock` (source lines
621-627). -/
def print_translateblock (language : Option String) (blk : List Node)
    (s : State) : Except Err State :=
  let s := write (indent s) ("translate " ++ language.getD "None" ++ " ")
  print_nodes blk 0 { s with skip_indent_until_write := true }
termination_by (sizeOf blk, 3)

end

/-- Initial TraversalState of a top-level render (fields of
`DecompilerBase.__init__` and `Decompiler.__init__` with the default
configuration, modelled from the spec for the base part). -/
def mkState (comparable : Bool) : State :=
  { out := "", linenumber := 0, indent_level := 0,
    skip_indent_until_write := false, comparable := comparable,
    force_multiline_kwargs := true, decompile_python := true,
    decompile_screencode := true, paired_with := .absent,
    say_inside_menu := none, block := [], index := 0 }

/-- Translation of `Decompiler.dump` (source lines 67-72) over the modelled
base driver: the provenance banner unless comparable, then the rendered
node sequence (initial indent skipped in comparable mode), then exactly one
trailing newline. -/
def dump (ast : List Node) (indent_level : Nat) (comparable : Bool) :
    Except Err State := do
  let s := mkState comparable
  let s := if !comparable then
      write s "# Decompiled by unrpyc (https://github.com/CensoredUsername/unrpyc"
    else s
  let s := { s with indent_level := indent_level,
                    skip_indent_until_write := comparable }
  let s ← print_nodes ast 0 s
  .ok (write s "\n")

theorem write_indent_level (s : State) (t : String) :
    (write s t).indent_level = s.indent_level := rfl

theorem indent_indent_level (s : State) :
    (indent s).indent_level = s.indent_level := by
  unfold indent
  split
  · rfl
  · split <;> rfl

theorem advance_indent_level (s : State) (target : Nat) :
    (advance_to_line s target).indent_level = s.indent_level := by
  unfold advance_to_line
  split
  · rfl
  · split <;> rfl

theorem foldl_write_indent_level (ls : List String) (s : State) :
    (ls.foldl (fun s t => write (indent s) t) s).indent_level = s.indent_level := by
  induction ls generalizing s with
  | nil => rfl
  | cons a rest ih =>
      simp only [List.foldl_cons]
      rw [ih]
      simp [write_indent_level, indent_indent_level]

theorem print_imspec_indent_level (spec : ImSpec) (s : State) :
    ∀ s' b, print_imspec spec s = .ok (s', b) → s'.indent_level = s.indent_level := by
  simp only [print_imspec]
  repeat' split
  all_goals intro s' b h
  all_goals simp only [reduceCtorEq, Except.ok.injEq, Prod.mk.injEq] at h
  all_goals obtain ⟨h1, -⟩ := h
  all_goals subst h1
  all_goals simp [write_indent_level]

theorem consume_paired_with_indent_level (ns : Bool) (s : State) :
    (consume_paired_with ns s).indent_level = s.indent_level := by
  simp only [consume_paired_with]
  repeat' split
  all_goals simp [write_indent_level]

theorem print_say_render_indent_level (d : SayData) (im : Bool) (s : State) :
    (print_say_render d im s).indent_level = s.indent_level := by
  simp only [print_say_render]
  repeat' split
  all_goals simp [write_indent_level, indent_indent_level]

theorem print_say_indent_level (d : SayData) (im : Bool) (s : State) :
    ∀ s', print_say d im s = .ok s' → s'.indent_level = s.indent_level := by
  simp only [print_say]
  repeat' split
  all_goals intro s' h
  all_goals simp only [reduceCtorEq, Except.ok.injEq] at h
  all_goals subst h
  all_goals simp [print_say_render_indent_level]

theorem print_with_indent_level (expr : String) (paired : Option String) (s : State) :
    ∀ s', print_with expr paired s = .ok s' → s'.indent_level = s.indent_level := by
  simp only [print_with]
  repeat' split
  all_goals intro s' h
  all_goals simp only [reduceCtorEq, Except.ok.injEq] at h
  all_goals subst h
  all_goals simp [write_indent_level, indent_indent_level]

theorem print_hide_indent_level (spec : ImSpec) (s : State) :
    ∀ s', print_hide spec s = .ok s' → s'.indent_level = s.indent_level := by
  simp only [print_hide, bind, Except.bind]
  cases hI : print_imspec spec (write (indent s) "hide ") with
  | error e => intro s' h; simp at h
  | ok p =>
      intro s' h
      simp only [Except.ok.injEq] at h
      subst h
      have := print_imspec_indent_level spec (write (indent s) "hide ") p.1 p.2
      simp only [write_indent_level, indent_indent_level] at this
      exact this hI

theorem print_python_indent_level (code : String) (hide early : Bool) (s : State) :
    ∀ s', print_python code hide early s = .ok s' → s'.indent_level = s.indent_level := by
  simp only [print_python]
  repeat' split
  all_goals intro s' h
  all_goals simp only [reduceCtorEq, Except.ok.injEq] at h
  all_goals subst h
  all_goals simp [write_indent_level, indent_indent_level, foldl_write_indent_level]

theorem print_define_indent_level (store : Option String) (v c : String) (s : State) :
    (print_define store v c s).indent_level = s.indent_level := by
  simp only [print_define]
  repeat' split
  all_goals simp [write_indent_level, indent_indent_level]

theorem print_jump_indent_level (e : Bool) (t : String) (s : State) :
    (print_jump e t s).indent_level = s.indent_level := by
  simp only [print_jump]
  repeat' split
  all_goals simp [write_indent_level, indent_indent_level]

theorem print_call_indent_level (e : Bool) (l : String) (a : Option String) (s : State) :
    (print_call e l a s).indent_level = s.indent_level := by
  simp only [print_call]
  repeat' split
  all_goals simp [write_indent_level, indent_indent_level]

theorem print_return_indent_level (e : Option String) (s : State) :
    (print_return e s).indent_level = s.indent_level := by
  simp only [print_return]
  repeat' split
  all_goals simp [write_indent_level, indent_indent_level]

theorem print_pass_indent_level (s : State) :
    (print_pass s).indent_level = s.indent_level := by
  simp only [print_pass]
  repeat' split
  all_goals simp [write_indent_level, indent_indent_level]

theorem print_userstatement_indent_level (l : String) (s : State) :
    (print_userstatement l s).indent_level = s.indent_level := by
  simp [print_userstatement, write_indent_level, indent_indent_level]

theorem print_style_indent_level (nm : String) (parent : Option String)
    (clear : Bool) (takes : Option String) (delattr : List String)
    (variant : Option String) (props : List (String × String)) (s : State) :
    (print_style nm parent clear takes delattr variant props s).indent_level
      = s.indent_level := by
  simp only [print_style]
  repeat' split
  all_goals simp [write_indent_level, indent_indent_level, foldl_write_indent_level]

theorem print_translatestring_indent_level (ln : Nat) (lang : Option String)
    (o n : String) (s : State) :
    (print_translatestring ln lang o n s).indent_level = s.indent_level := by
  simp only [print_translatestring]
  repeat' split
  all_goals simp [write_indent_level, indent_indent_level, advance_indent_level]

theorem print_screen_indent_level (b : String) (e : Nat) (s : State) :
    (print_screen b e s).indent_level = s.indent_level := rfl

theorem print_unknown_indent_level (t : String) (s : State) :
    (print_unknown t s).indent_level = s.indent_level := by
  simp [print_unknown, write_indent_level, indent_indent_level]

theorem print_atl_rawmulti_indent_level (wf w : Option String) (dur : String)
    (rev : Option String) (circ : String) (sp : List (String × List String))
    (pr : List (String × String)) (ex : List (String × Option String)) (s : State) :
    (print_atl_rawmulti wf w dur rev circ sp pr ex s).indent_level = s.indent_level := by
  simp [print_atl_rawmulti, write_indent_level, indent_indent_level]

theorem print_atl_rawcontainsexpr_indent_level (e : String) (s : State) :
    (print_atl_rawcontainsexpr e s).indent_level = s.indent_level := by
  simp [print_atl_rawcontainsexpr, write_indent_level, indent_indent_level]

theorem print_atl_rawevent_indent_level (n : String) (s : State) :
    (print_atl_rawevent n s).indent_level = s.indent_level := by
  simp [print_atl_rawevent, write_indent_level, indent_indent_level]

theorem print_atl_rawfunction_indent_level (e : String) (s : State) :
    (print_atl_rawfunction e s).indent_level = s.indent_level := by
  simp [print_atl_rawfunction, write_indent_level, indent_indent_level]

theorem print_atl_rawrepeat_indent_level (r : Option String) (s : State) :
    (print_atl_rawrepeat r s).indent_level = s.indent_level := by
  simp only [print_atl_rawrepeat]
  repeat' split
  all_goals simp [write_indent_level, indent_indent_level]

theorem print_atl_rawtime_indent_level (t : String) (s : State) :
    (print_atl_rawtime t s).indent_level = s.indent_level := by
  simp [print_atl_rawtime, write_indent_level, indent_indent_level]

theorem write_say_inside_menu (s : State) (t : String) :
    (write s t).say_inside_menu = s.say_inside_menu := rfl

theorem indent_say_inside_menu (s : State) :
    (indent s).say_inside_menu = s.say_inside_menu := by
  unfold indent
  split
  · rfl
  · split <;> rfl

theorem except_ok_bind {α β : Type} (a : α) (f : α → Except Err β) :
    (Except.ok a : Except Err α).bind f = f a := rfl

theorem except_bind_ok {α β : Type} {x : Except Err α} {f : α → Except Err β} {b : β}
    (h : x.bind f = .ok b) : ∃ a, x = .ok a ∧ f a = .ok b := by
  cases x with
  | error e => simp [Except.bind] at h
  | ok a => exact ⟨a, rfl, h⟩

set_option maxHeartbeats 4000000
set_option maxRecDepth 2048

mutual

theorem print_node_inv (n : Node) (s : State) :
    ∀ s', print_node n s = .ok s' → s'.indent_level = s.indent_level := by
  cases n with
  | RawMultipurpose loc wf w dur rev circ sp pr ex =>
      intro s' h
      simp only [print_node, node_advance_line, nodeLinenumber, Except.ok.injEq] at h
      subst h
      simp [print_atl_rawmulti_indent_level, advance_indent_level]
  | RawBlock b =>
      intro s' h
      simp only [print_node, node_advance_line] at h
      exact print_atl_rawblock_inv b s s' h
  | RawChild loc children =>
      intro s' h
      simp only [print_node, node_advance_line, nodeLinenumber] at h
      exact (print_atl_rawchild_inv children _ s' h).trans (advance_indent_level s loc.2)
  | RawChoice loc choices =>
      intro s' h
      simp only [print_node, node_advance_line, nodeLinenumber] at h
      exact (print_atl_rawchoice_inv choices _ s' h).trans (advance_indent_level s loc.2)
  | RawContainsExpr loc e =>
      intro s' h
      simp only [print_node, node_advance_line, nodeLinenumber, Except.ok.injEq] at h
      subst h
      simp [print_atl_rawcontainsexpr_indent_level, advance_indent_level]
  | RawEvent loc nm =>
      intro s' h
      simp only [print_node, node_advance_line, nodeLinenumber, Except.ok.injEq] at h
      subst h
      simp [print_atl_rawevent_indent_level, advance_indent_level]
  | RawFunction loc e =>
      intro s' h
      simp only [print_node, node_advance_line, nodeLinenumber, Except.ok.injEq] at h
      subst h
      simp [print_atl_rawfunction_indent_level, advance_indent_level]
  | RawOn loc handlers =>
      intro s' h
      simp only [print_node, node_advance_line, nodeLinenumber] at h
      exact (print_atl_rawon_inv handlers _ s' h).trans (advance_indent_level s loc.2)
  | RawParallel loc blocks =>
      intro s' h
      simp only [print_node, node_advance_line, nodeLinenumber] at h
      exact (print_atl_rawparallel_inv blocks _ s' h).trans (advance_indent_level s loc.2)
  | RawRepeat loc r =>
      intro s' h
      simp only [print_node, node_advance_line, nodeLinenumber, Except.ok.injEq] at h
      subst h
      simp [print_atl_rawrepeat_indent_level, advance_indent_level]
  | RawTime loc t =>
      intro s' h
      simp only [print_node, node_advance_line, nodeLinenumber, Except.ok.injEq] at h
      subst h
      simp [print_atl_rawtime_indent_level, advance_indent_level]
  | Image ln imgname code atl =>
      intro s' h
      simp only [print_node, node_advance_line, nodeLinenumber] at h
      exact (print_image_inv imgname code atl _ s' h).trans (advance_indent_level s ln)
  | Transform ln varname params atl =>
      intro s' h
      simp only [print_node, node_advance_line, nodeLinenumber] at h
      exact (print_transform_inv varname params atl _ s' h).trans (advance_indent_level s ln)
  | Show ln spec atl =>
      intro s' h
      simp only [print_node, node_advance_line, nodeLinenumber] at h
      exact (print_show_inv spec atl _ s' h).trans (advance_indent_level s ln)
  | ShowLayer ln layer at_list atl =>
      intro s' h
      simp only [print_node, node_advance_line, nodeLinenumber] at h
      exact (print_showlayer_inv layer at_list atl _ s' h).trans (advance_indent_level s ln)
  | Scene ln spec layer atl =>
      intro s' h
      simp only [print_node, node_advance_line, nodeLinenumber] at h
      exact (print_scene_inv spec layer atl _ s' h).trans (advance_indent_level s ln)
  | Hide ln spec =>
      intro s' h
      simp only [print_node, node_advance_line, nodeLinenumber] at h
      exact (print_hide_indent_level spec _ s' h).trans (advance_indent_level s ln)
  | With ln expr paired =>
      intro s' h
      simp only [print_node, node_advance_line, nodeLinenumber] at h
      exact (print_with_indent_level expr paired _ s' h).trans (advance_indent_level s ln)
  | Label ln nm params blk =>
      intro s' h
      simp only [print_node, node_advance_line, nodeLinenumber] at h
      exact (print_label_inv nm params blk _ s' h).trans (advance_indent_level s ln)
  | Jump ln e t =>
      intro s' h
      simp only [print_node, node_advance_line, nodeLinenumber, Except.ok.injEq] at h
      subst h
      simp [print_jump_indent_level, advance_indent_level]
  | Call ln e l a =>
      intro s' h
      simp only [print_node, node_advance_line, nodeLinenumber, Except.ok.injEq] at h
      subst h
      simp [print_call_indent_level, advance_indent_level]
  | Return ln e =>
      intro s' h
      simp only [print_node, node_advance_line, nodeLinenumber, Except.ok.injEq] at h
      subst h
      simp [print_return_indent_level, advance_indent_level]
  | If ln entries =>
      intro s' h
      simp only [print_node, node_advance_line, nodeLinenumber] at h
      exact (print_if_inv entries _ s' h).trans (advance_indent_level s ln)
  | While ln cond blk =>
      intro s' h
      simp only [print_node, node_advance_line, nodeLinenumber] at h
      exact (print_while_inv cond blk _ s' h).trans (advance_indent_level s ln)
  | Pass ln =>
      intro s' h
      simp only [print_node, node_advance_line, nodeLinenumber, Except.ok.injEq] at h
      subst h
      simp [print_pass_indent_level, advance_indent_level]
  | Init ln priority blk =>
      intro s' h
      simp only [print_node, node_advance_line, nodeLinenumber] at h
      exact (print_init_inv ln priority blk _ s' h).trans (advance_indent_level s ln)
  | Menu ln items mwith msetv =>
      intro s' h
      simp only [print_node, node_advance_line, nodeLinenumber] at h
      exact (print_menu_inv items mwith msetv _ s' h).trans (advance_indent_level s ln)
  | Python ln code hide =>
      intro s' h
      simp only [print_node, node_advance_line, nodeLinenumber] at h
      exact (print_python_indent_level code hide false _ s' h).trans (advance_indent_level s ln)
  | EarlyPython ln code hide =>
      intro s' h
      simp only [print_node, node_advance_line, nodeLinenumber] at h
      exact (print_python_indent_level code hide true _ s' h).trans (advance_indent_level s ln)
  | Define ln store varname code =>
      intro s' h
      simp only [print_node, node_advance_line, nodeLinenumber, Except.ok.injEq] at h
      subst h
      simp [print_define_indent_level, advance_indent_level]
  | Say d =>
      intro s' h
      simp only [print_node, node_advance_line, nodeLinenumber] at h
      exact (print_say_indent_level d false _ s' h).trans (advance_indent_level s d.linenumber)
  | UserStatement ln line =>
      intro s' h
      simp only [print_node, node_advance_line, nodeLinenumber, Except.ok.injEq] at h
      subst h
      simp [print_userstatement_indent_level, advance_indent_level]
  | Style ln nm parent clear takes delattr variant props =>
      intro s' h
      simp only [print_node, node_advance_line, nodeLinenumber, Except.ok.injEq] at h
      subst h
      simp [print_style_indent_level, advance_indent_level]
  | Translate ln language identifier blk =>
      intro s' h
      simp only [print_node, node_advance_line, nodeLinenumber] at h
      exact (print_translate_inv language identifier blk _ s' h).trans (advance_indent_level s ln)
  | EndTranslate ln =>
      intro s' h
      simp only [print_node, node_advance_line, nodeLinenumber, Except.ok.injEq] at h
      subst h
      simp [advance_indent_level]
  | TranslateString ln language oldstr newstr =>
      intro s' h
      simp only [print_node, node_advance_line, Except.ok.injEq] at h
      subst h
      simp [print_translatestring_indent_level]
  | TranslateBlock ln language blk =>
      intro s' h
      simp only [print_node, node_advance_line, nodeLinenumber] at h
      exact (print_translateblock_inv language blk _ s' h).trans (advance_indent_level s ln)
  | Screen ln body endline =>
      intro s' h
      simp only [print_node, node_advance_line, nodeLinenumber, Except.ok.injEq] at h
      subst h
      simp [print_screen_indent_level, advance_indent_level]
  | Unknown tag =>
      intro s' h
      simp only [print_node, node_advance_line, Except.ok.injEq] at h
      subst h
      simp [print_unknown_indent_level]
termination_by (sizeOf n, 0)

theorem print_nodes_inv (blk : List Node) (extra : Nat) (s : State) :
    ∀ s', print_nodes blk extra s = .ok s' → s'.indent_level = s.indent_level := by
  intro s' h
  simp only [print_nodes, bind] at h
  obtain ⟨s2, h1, h2⟩ := except_bind_ok h
  have e1 := print_nodes_list_inv blk 0 _ s2 h1
  simp only [Except.ok.injEq] at h2
  subst h2
  simp only at e1 ⊢
  omega
termination_by (sizeOf blk, 2)

theorem print_nodes_list_inv (l : List Node) (i : Nat) (s : State) :
    ∀ s', print_nodes_list l i s = .ok s' → s'.indent_level = s.indent_level := by
  cases l with
  | nil =>
      intro s' h
      simp only [print_nodes_list, Except.ok.injEq] at h
      subst h
      rfl
  | cons n rest =>
      intro s' h
      simp only [print_nodes_list, bind] at h
      obtain ⟨s1, h1, h2⟩ := except_bind_ok h
      have e1 := print_node_inv n _ s1 h1
      have e2 := print_nodes_list_inv rest (i + 1) s1 s' h2
      simp only at e1
      omega
termination_by (sizeOf l, 1)

theorem print_atl_inv (b : AtlBlock) (s : State) :
    ∀ s', print_atl b s = .ok s' → s'.indent_level = s.indent_level := by
  cases b with
  | mk loc stmts =>
      cases stmts with
      | nil =>
          simp only [print_atl]
          intro s' h
          split at h
          all_goals simp only [Except.ok.injEq] at h
          all_goals subst h
          all_goals simp [write_indent_level, indent_indent_level, advance_indent_level]
      | cons c rest =>
          intro s' h
          simp only [print_atl, bind] at h
          obtain ⟨s2, h1, h2⟩ := except_bind_ok h
          have e1 := print_nodes_inv (c :: rest) 0 _ s2 h1
          simp only [Except.ok.injEq] at h2
          subst h2
          simp only [advance_indent_level] at e1 ⊢
          omega
termination_by (sizeOf b, 1)

theorem print_atl_rawblock_inv (b : AtlBlock) (s : State) :
    ∀ s', print_atl_rawblock b s = .ok s' → s'.indent_level = s.indent_level := by
  intro s' h
  simp only [print_atl_rawblock] at h
  exact (print_atl_inv b _ s' h).trans
    (by simp [write_indent_level, indent_indent_level])
termination_by (sizeOf b, 2)

theorem print_atl_rawchild_inv (children : List AtlBlock) (s : State) :
    ∀ s', print_atl_rawchild children s = .ok s' → s'.indent_level = s.indent_level := by
  cases children with
  | nil =>
      intro s' h
      simp only [print_atl_rawchild, Except.ok.injEq] at h
      subst h
      rfl
  | cons child rest =>
      intro s' h
      simp only [print_atl_rawchild, bind] at h
      obtain ⟨s1, h1, h2⟩ := except_bind_ok h
      have e1 := print_atl_inv child _ s1 h1
      have e2 := print_atl_rawchild_inv rest s1 s' h2
      simp only [write_indent_level, indent_indent_level] at e1
      omega
termination_by (sizeOf children, 0)

theorem print_atl_rawchoice_inv (choices : List (String × AtlBlock)) (s : State) :
    ∀ s', print_atl_rawchoice choices s = .ok s' → s'.indent_level = s.indent_level := by
  cases choices with
  | nil =>
      intro s' h
      simp only [print_atl_rawchoice, Except.ok.injEq] at h
      subst h
      rfl
  | cons cb rest =>
      obtain ⟨chance, blk⟩ := cb
      intro s' h
      simp only [print_atl_rawchoice, bind] at h
      obtain ⟨s1, h1, h2⟩ := except_bind_ok h
      have e1 := print_atl_inv blk _ s1 h1
      have e2 := print_atl_rawchoice_inv rest s1 s' h2
      simp only [write_indent_level, indent_indent_level,
        apply_ite (fun st : State => st.indent_level), ite_self] at e1
      omega
termination_by (sizeOf choices, 0)

theorem print_atl_rawon_inv (handlers : List (String × AtlBlock)) (s : State) :
    ∀ s', print_atl_rawon handlers s = .ok s' → s'.indent_level = s.indent_level := by
  intro s' h
  simp only [print_atl_rawon] at h
  exact print_atl_rawon_list_inv _ s s' h
termination_by (sizeOf handlers, 3)
decreasing_by
  simp_wf
  have hsz : sizeOf (if s.comparable = true then handlers.mergeSort rawonLe
      else handlers) = sizeOf handlers := by
    split
    · exact perm_sizeOf_eq (List.mergeSort_perm handlers rawonLe)
    · rfl
  rw [hsz]
  exact Prod.Lex.right _ (by omega)

theorem print_atl_rawon_list_inv (evs : List (String × AtlBlock)) (s : State) :
    ∀ s', print_atl_rawon_list evs s = .ok s' → s'.indent_level = s.indent_level := by
  cases evs with
  | nil =>
      intro s' h
      simp only [print_atl_rawon_list, Except.ok.injEq] at h
      subst h
      rfl
  | cons nb rest =>
      obtain ⟨nm, blk⟩ := nb
      intro s' h
      simp only [print_atl_rawon_list, bind] at h
      obtain ⟨s1, h1, h2⟩ := except_bind_ok h
      have e1 := print_atl_inv blk _ s1 h1
      have e2 := print_atl_rawon_list_inv rest s1 s' h2
      simp only [write_indent_level, indent_indent_level] at e1
      omega
termination_by (sizeOf evs, 2)

theorem print_atl_rawparallel_inv (blocks : List AtlBlock) (s : State) :
    ∀ s', print_atl_rawparallel blocks s = .ok s' → s'.indent_level = s.indent_level := by
  cases blocks with
  | nil =>
      intro s' h
      simp only [print_atl_rawparallel, Except.ok.injEq] at h
      subst h
      rfl
  | cons blk rest =>
      intro s' h
      simp only [print_atl_rawparallel, bind] at h
      obtain ⟨s1, h1, h2⟩ := except_bind_ok h
      have e1 := print_atl_inv blk _ s1 h1
      have e2 := print_atl_rawparallel_inv rest s1 s' h2
      simp only [write_indent_level, indent_indent_level] at e1
      omega
termination_by (sizeOf blocks, 0)

theorem print_image_inv (imgname : List String) (code : Option String)
    (atl : Option AtlBlock) (s : State) :
    ∀ s', print_image imgname code atl s = .ok s' → s'.indent_level = s.indent_level := by
  simp only [print_image.eq_def]
  repeat' split
  all_goals intro s' h
  all_goals first
    | (simp only [Except.ok.injEq] at h
       subst h
       simp [write_indent_level, indent_indent_level])
    | exact (print_atl_inv _ _ s' h).trans
        (by simp [write_indent_level, indent_indent_level])
termination_by (sizeOf atl, 0)

theorem print_transform_inv (varname : String) (parameters : Option String)
    (atl : Option AtlBlock) (s : State) :
    ∀ s', print_transform varname parameters atl s = .ok s' →
      s'.indent_level = s.indent_level := by
  simp only [print_transform.eq_def]
  repeat' split
  all_goals intro s' h
  all_goals first
    | (simp only [Except.ok.injEq] at h
       subst h
       simp [write_indent_level, indent_indent_level])
    | exact (print_atl_inv _ _ s' h).trans
        (by simp [write_indent_level, indent_indent_level])
termination_by (sizeOf atl, 0)

theorem print_show_inv (spec : ImSpec) (atl : Option AtlBlock) (s : State) :
    ∀ s', print_show spec atl s = .ok s' → s'.indent_level = s.indent_level := by
  cases atl with
  | none =>
      intro s' h
      simp only [print_show, bind] at h
      obtain ⟨⟨s1, tr⟩, h1, h2⟩ := except_bind_ok h
      have e1 := print_imspec_indent_level spec _ s1 tr h1
      simp only [write_indent_level, indent_indent_level] at e1
      have h3 : Except.ok (consume_paired_with (!tr) s1) = Except.ok s' := h2
      simp only [Except.ok.injEq] at h3
      subst h3
      simp [consume_paired_with_indent_level, e1]
  | some b =>
      intro s' h
      simp only [print_show, bind] at h
      obtain ⟨⟨s1, tr⟩, h1, h2⟩ := except_bind_ok h
      have e1 := print_imspec_indent_level spec _ s1 tr h1
      simp only [write_indent_level, indent_indent_level] at e1
      have h3 : print_atl b (write (consume_paired_with (!tr) s1) ":")
          = Except.ok s' := h2
      have e2 := print_atl_inv b _ s' h3
      simp only [write_indent_level, consume_paired_with_indent_level] at e2
      omega
termination_by (sizeOf atl, 0)

theorem print_showlayer_inv (layer : String) (at_list : List String)
    (atl : Option AtlBlock) (s : State) :
    ∀ s', print_showlayer layer at_list atl s = .ok s' →
      s'.indent_level = s.indent_level := by
  simp only [print_showlayer.eq_def]
  repeat' split
  all_goals intro s' h
  all_goals first
    | (simp only [Except.ok.injEq] at h
       subst h
       simp [write_indent_level, indent_indent_level])
    | exact (print_atl_inv _ _ s' h).trans
        (by simp [write_indent_level, indent_indent_level])
termination_by (sizeOf atl, 0)

theorem print_scene_inv (spec : Option ImSpec) (layer : String)
    (atl : Option AtlBlock) (s : State) :
    ∀ s', print_scene spec layer atl s = .ok s' → s'.indent_level = s.indent_level := by
  cases spec with
  | none =>
      cases atl with
      | none =>
          intro s' h
          simp only [print_scene, bind, pure, Except.pure, except_ok_bind] at h
          simp only [Except.ok.injEq] at h
          subst h
          simp [consume_paired_with_indent_level, write_indent_level,
            indent_indent_level, apply_ite (fun st : State => st.indent_level), ite_self]
      | some b =>
          intro s' h
          simp only [print_scene, bind, pure, Except.pure, except_ok_bind] at h
          have e2 := print_atl_inv b _ s' h
          simp only [write_indent_level, consume_paired_with_indent_level,
            apply_ite (fun st : State => st.indent_level), ite_self,
            indent_indent_level] at e2
          exact e2
  | some sp =>
      cases atl with
      | none =>
          intro s' h
          simp only [print_scene, bind, pure, Except.pure, except_ok_bind] at h
          obtain ⟨⟨sx, tx⟩, hx1, h2⟩ := except_bind_ok h
          have ex := print_imspec_indent_level sp _ sx tx hx1
          simp only [write_indent_level, indent_indent_level] at ex
          have h3 : Except.ok (consume_paired_with (!tx) sx) = Except.ok s' := h2
          simp only [Except.ok.injEq] at h3
          subst h3
          simp [consume_paired_with_indent_level, ex]
      | some b =>
          intro s' h
          simp only [print_scene, bind, pure, Except.pure, except_ok_bind] at h
          obtain ⟨⟨sx, tx⟩, hx1, h2⟩ := except_bind_ok h
          have ex := print_imspec_indent_level sp _ sx tx hx1
          simp only [write_indent_level, indent_indent_level] at ex
          have h3 : print_atl b (write (consume_paired_with (!tx) sx) ":")
              = Except.ok s' := h2
          have e2 := print_atl_inv b _ s' h3
          simp only [write_indent_level, consume_paired_with_indent_level] at e2
          omega
termination_by (sizeOf atl, 0)

theorem print_label_inv (nm : String) (parameters : Option String)
    (blk : List Node) (s : State) :
    ∀ s', print_label nm parameters blk s = .ok s' → s'.indent_level = s.indent_level := by
  simp only [print_label.eq_def]
  split
  · intro s' h
    simp only [Except.ok.injEq] at h
    subst h
    simp [write_indent_level]
  · intro s' h
    exact (print_nodes_inv blk 1 _ s' h).trans
      (by simp [write_indent_level, indent_indent_level])
termination_by (sizeOf blk, 3)

theorem print_if_inv (entries : List (String × List Node)) (s : State) :
    ∀ s', print_if entries s = .ok s' → s'.indent_level = s.indent_level := by
  intro s' h
  simp only [print_if] at h
  exact print_if_entries_inv entries false s s' h
termination_by (sizeOf entries, 3)

theorem print_if_entries_inv (entries : List (String × List Node)) (firstUsed : Bool)
    (s : State) :
    ∀ s', print_if_entries entries firstUsed s = .ok s' →
      s'.indent_level = s.indent_level := by
  cases entries with
  | nil =>
      intro s' h
      simp only [print_if_entries, Except.ok.injEq] at h
      subst h
      rfl
  | cons cb rest =>
      obtain ⟨condition, blk⟩ := cb
      intro s' h
      simp only [print_if_entries, bind] at h
      obtain ⟨s1, h1, h2⟩ := except_bind_ok h
      have e1 := print_nodes_inv blk 1 _ s1 h1
      have e2 := print_if_entries_inv rest _ s1 s' h2
      simp only [apply_ite (fun p : State × Bool => p.1),
        apply_ite (fun st : State => st.indent_level), write_indent_level,
        indent_indent_level, ite_self] at e1
      omega
termination_by (sizeOf entries, 2)

theorem print_while_inv (condition : String) (blk : List Node) (s : State) :
    ∀ s', print_while condition blk s = .ok s' → s'.indent_level = s.indent_level := by
  intro s' h
  simp only [print_while] at h
  exact (print_nodes_inv blk 1 _ s' h).trans
    (by simp [write_indent_level, indent_indent_level])
termination_by (sizeOf blk, 3)

theorem print_init_inv (linenumber : Nat) (priority : Int) (blk : List Node)
    (s : State) :
    ∀ s', print_init linenumber priority blk s = .ok s' →
      s'.indent_level = s.indent_level := by
  cases blk with
  | nil =>
      simp only [print_init.eq_def]
      repeat' split
      all_goals intro s' h
      all_goals
        exact (print_nodes_inv _ _ _ s' h).trans
          (by simp [write_indent_level, indent_indent_level,
                apply_ite (fun st : State => st.indent_level), ite_self])
  | cons c rest =>
      cases rest with
      | nil =>
          simp only [print_init.eq_def]
          repeat' split
          all_goals intro s' h
          all_goals
            exact (print_nodes_inv _ _ _ s' h).trans
              (by simp [write_indent_level, indent_indent_level,
                    apply_ite (fun st : State => st.indent_level), ite_self])
      | cons c2 rest2 =>
          simp only [print_init.eq_def]
          repeat' split
          all_goals intro s' h
          all_goals
            exact (print_nodes_inv _ _ _ s' h).trans
              (by simp [write_indent_level, indent_indent_level,
                    apply_ite (fun st : State => st.indent_level), ite_self])
termination_by (sizeOf blk, 3)

theorem print_menu_inv (items : List (String × String × Option (List Node)))
    (mwith : Option String) (msetv : Option String) (s : State) :
    ∀ s', print_menu items mwith msetv s = .ok s' → s'.indent_level = s.indent_level := by
  intro s' h
  rcases hS : s.say_inside_menu with _ | d
  · simp only [print_menu, bind, write_say_inside_menu, indent_say_inside_menu, hS,
      pure, Except.pure, except_ok_bind] at h
    obtain ⟨sB, hB, hC⟩ := except_bind_ok h
    have eB := print_menu_items_inv items _ sB hB
    simp only [Except.ok.injEq] at hC
    subst hC
    have eB2 : sB.indent_level = s.indent_level + 1 := by
      rw [eB]
      rcases mwith with _ | w <;> rcases msetv with _ | st <;>
        simp [write_indent_level, indent_indent_level]
    show sB.indent_level - 1 = s.indent_level
    omega
  · simp only [print_menu, bind, write_say_inside_menu, indent_say_inside_menu, hS,
      pure, Except.pure, except_ok_bind] at h
    obtain ⟨sy, hy, hrest⟩ := except_bind_ok h
    have ey := print_say_indent_level d true _ sy hy
    obtain ⟨sB, hB, hC⟩ := except_bind_ok hrest
    have eB := print_menu_items_inv items _ sB hB
    simp only [Except.ok.injEq] at hC
    subst hC
    have ey2 : sy.indent_level = s.indent_level + 1 := by
      rw [ey]
      simp [write_indent_level, indent_indent_level]
    have eB2 : sB.indent_level = sy.indent_level := by
      rw [eB]
      rcases mwith with _ | w <;> rcases msetv with _ | st <;>
        simp [write_indent_level, indent_indent_level]
    show sB.indent_level - 1 = s.indent_level
    omega
termination_by (sizeOf items, 3)

theorem print_menu_items_inv (items : List (String × String × Option (List Node)))
    (s : State) :
    ∀ s', print_menu_items items s = .ok s' → s'.indent_level = s.indent_level := by
  cases items with
  | nil =>
      intro s' h
      simp only [print_menu_items, Except.ok.injEq] at h
      subst h
      rfl
  | cons it rest =>
      obtain ⟨label, condition, blkO⟩ := it
      rcases blkO with _ | b
      · intro s' h
        simp only [print_menu_items, bind, pure, Except.pure, except_ok_bind] at h
        have e2 := print_menu_items_inv rest _ s' h
        simp only [write_indent_level, indent_indent_level] at e2
        exact e2
      · intro s' h
        simp only [print_menu_items, bind] at h
        obtain ⟨s1, h1, h2⟩ := except_bind_ok h
        have e2 := print_menu_items_inv rest s1 s' h2
        have e1 : s1.indent_level = s.indent_level := by
          have := print_nodes_inv b 1 _ s1 h1
          simp only [write_indent_level, indent_indent_level,
            apply_ite (fun st : State => st.indent_level), ite_self] at this
          exact this
        omega
termination_by (sizeOf items, 2)

theorem print_translate_inv (language : Option String) (identifier : String)
    (blk : List Node) (s : State) :
    ∀ s', print_translate language identifier blk s = .ok s' →
      s'.indent_level = s.indent_level := by
  intro s' h
  simp only [print_translate] at h
  exact (print_nodes_inv blk 1 _ s' h).trans
    (by simp [write_indent_level, indent_indent_level])
termination_by (sizeOf blk, 3)

theorem print_translateblock_inv (language : Option String) (blk : List Node)
    (s : State) :
    ∀ s', print_translateblock language blk s = .ok s' →
      s'.indent_level = s.indent_level := by
  intro s' h
  simp only [print_translateblock] at h
  exact (print_nodes_inv blk 0 _ s' h).trans
    (by simp [write_indent_level, indent_indent_level])
termination_by (sizeOf blk, 3)

end

/-! ## Further shared helper lemmas for the claim theorems -/

/-- Intercalation of a one-element list is that element. -/
theorem intercalate_single (sep x : String) : String.intercalate sep [x] = x := rfl

/-- Reassociation of a string append whose left part is known. -/
theorem append_left_merge (x y : String) {z : String} (h : x ++ y = z)
    (t : String) : x ++ (y ++ t) = z ++ t := by
  rw [← String.append_assoc, h]

/-- Cursor advancement does not change the comparable flag. -/
theorem advance_comparable (s : State) (t : Nat) :
    (advance_to_line s t).comparable = s.comparable := by
  unfold advance_to_line
  split
  · rfl
  · split <;> rfl

/-- Writing does not change the pairing register. -/
theorem write_paired_with (s : State) (t : String) :
    (write s t).paired_with = s.paired_with := rfl

/-- Indenting does not change the pairing register. -/
theorem indent_paired_with (s : State) :
    (indent s).paired_with = s.paired_with := by
  unfold indent
  split
  · rfl
  · split <;> rfl

/-- Rendering an ImageSpec does not change the pairing register. -/
theorem print_imspec_paired_with (spec : ImSpec) (s : State) :
    ∀ s' b, print_imspec spec s = .ok (s', b) → s'.paired_with = s.paired_with := by
  simp only [print_imspec]
  repeat' split
  all_goals intro s' b h
  all_goals simp only [reduceCtorEq, Except.ok.injEq, Prod.mk.injEq] at h
  all_goals obtain ⟨h1, -⟩ := h
  all_goals subst h1
  all_goals simp [write_paired_with]

/-- Transitivity of the on-handler comparison. -/
theorem rawonLe_trans (a b c : String × AtlBlock) (h1 : rawonLe a b = true)
    (h2 : rawonLe b c = true) : rawonLe a c = true := by
  simp only [rawonLe, decide_eq_true_eq] at h1 h2 ⊢
  omega

/-- Totality of the on-handler comparison. -/
theorem rawonLe_total (a b : String × AtlBlock) :
    (rawonLe a b || rawonLe b a) = true := by
  simp only [rawonLe, Bool.or_eq_true, decide_eq_true_eq]
  omega

/-- Two permuted handler lists with pairwise distinct recorded lines sort to
the same list. -/
theorem mergeSort_eq_of_perm (h1 h2 : List (String × AtlBlock))
    (hperm : h1.Perm h2)
    (hnd : h1.Pairwise (fun x y => x.2.loc.2 ≠ y.2.loc.2)) :
    h1.mergeSort rawonLe = h2.mergeSort rawonLe := by
  have p1 := List.mergeSort_perm h1 rawonLe
  have p2 := List.mergeSort_perm h2 rawonLe
  have p12 : (h1.mergeSort rawonLe).Perm (h2.mergeSort rawonLe) :=
    p1.trans (hperm.trans p2.symm)
  have hsym : ∀ {x y : String × AtlBlock},
      x.2.loc.2 ≠ y.2.loc.2 → y.2.loc.2 ≠ x.2.loc.2 := fun h => h.symm
  have hnd1 : (h1.mergeSort rawonLe).Pairwise (fun x y => x.2.loc.2 ≠ y.2.loc.2) :=
    (List.Perm.pairwise_iff hsym p1).mpr hnd
  have hnd2 : (h2.mergeSort rawonLe).Pairwise (fun x y => x.2.loc.2 ≠ y.2.loc.2) :=
    (List.Perm.pairwise_iff hsym p12.symm).mpr hnd1
  have hs1 := List.sorted_mergeSort rawonLe_trans rawonLe_total h1
  have hs2 := List.sorted_mergeSort rawonLe_trans rawonLe_total h2
  have hlt1 : (h1.mergeSort rawonLe).Pairwise
      (fun x y : String × AtlBlock => x.2.loc.2 < y.2.loc.2) :=
    (hs1.and hnd1).imp (by
      intro a b hab
      obtain ⟨hle, hne⟩ := hab
      simp only [rawonLe, decide_eq_true_eq] at hle
      omega)
  have hlt2 : (h2.mergeSort rawonLe).Pairwise
      (fun x y : String × AtlBlock => x.2.loc.2 < y.2.loc.2) :=
    (hs2.and hnd2).imp (by
      intro a b hab
      obtain ⟨hle, hne⟩ := hab
      simp only [rawonLe, decide_eq_true_eq] at hle
      omega)
  haveI : IsAntisymm (String × AtlBlock)
      (fun x y : String × AtlBlock => x.2.loc.2 < y.2.loc.2) :=
    ⟨fun a b hab hba => absurd hba (by omega)⟩
  exact List.eq_of_perm_of_sorted p12 hlt1 hlt2

/-- Amended deferral condition for a dialogue node, written from the amended
claim C4: interaction off, a speaker present, no with-clause, no attributes,
and the following sibling a menu whose first choice has a present (non-None)
block, subject to the comparable-mode line-order check. -/
def say_defers (d : SayData) (s : State) : Bool :=
  !d.interact && d.who.isSome && d.with_.isNone && d.attributes.isNone
    && match s.block.get? (s.index + 1) with
       | some (.Menu mln items mw ms) =>
           (match items with
            | (_, _, some _) :: _ => true
            | _ => false)
           && !(should_come_before s.comparable (.Say d) (.Menu mln items mw ms))
       | _ => false

/-! ## Claim theorems -/

/-- C1: for a block `[With(paired=A), Show(name), With(expr=B)]`, rendering
succeeds and emits the show line with `with A` appended inline and no
further standalone `with` line exactly when `B = A`; otherwise rendering
raises the fatal structural-inconsistency exception from `print_with`.  The
pairing expression is required to be non-empty (an empty string is not an
expression, and is falsy to the Python truthiness tests involved). -/
theorem C1_pairing_resolution (a b n e0 : String) (ha : a ≠ "") :
    (b = a →
        print_nodes
          [Node.With 1 e0 (some a),
           Node.Show 1 ⟨[n], none, none, [], "master", none, []⟩ none,
           Node.With 1 b none] 0 (mkState true)
          = .ok { mkState true with
                  out := "show " ++ n ++ " with " ++ a, linenumber := 1 })
    ∧ (b ≠ a →
        print_nodes
          [Node.With 1 e0 (some a),
           Node.Show 1 ⟨[n], none, none, [], "master", none, []⟩ none,
           Node.With 1 b none] 0 (mkState true)
          = .error (.exception
              ("Unmatched paired with False != \x27" ++ e0 ++ "\x27"))) := by
  constructor
  · rintro rfl
    simp [print_nodes, print_nodes_list, print_node, node_advance_line,
      nodeLinenumber, advance_to_line, print_with, print_show, print_imspec,
      consume_paired_with, PairedWith.truthy, PairedWith.str, PairedWith.pyrepr,
      pyreprStr, intercalate_single, indent, at_line_start, write, mkState,
      bind, Except.bind, String.join, ha, String.append_assoc,
      append_left_merge " " "with " rfl]
  · intro hb
    simp [print_nodes, print_nodes_list, print_node, node_advance_line,
      nodeLinenumber, advance_to_line, print_with, PairedWith.pyrepr, pyreprStr,
      mkState, bind, Except.bind, hb, String.append_assoc,
      append_left_merge "Unmatched paired with False != " "\x27" rfl]

/-- Witness for C1 at the concrete inputs of the claim. -/
theorem C1_pairing_resolution_witness :
    print_nodes
        [Node.With 1 "None" (some "A"),
         Node.Show 1 ⟨["eileen"], none, none, [], "master", none, []⟩ none,
         Node.With 1 "A" none] 0 (mkState true)
      = .ok { mkState true with
              out := "show " ++ "eileen" ++ " with " ++ "A", linenumber := 1 }
    ∧ print_nodes
        [Node.With 1 "None" (some "A"),
         Node.Show 1 ⟨["eileen"], none, none, [], "master", none, []⟩ none,
         Node.With 1 "B" none] 0 (mkState true)
      = .error (.exception
          ("Unmatched paired with False != \x27" ++ "None" ++ "\x27")) :=
  ⟨(C1_pairing_resolution "A" "A" "eileen" "None" (by decide)).1 rfl,
   (C1_pairing_resolution "A" "B" "eileen" "None" (by decide)).2 (by decide)⟩

/-- C2 counterexample: the style property map is iterated in storage order
even in comparable mode, so two structurally equivalent styles (their
property lists are permutations of each other) render differently. -/
theorem C2_style_order_counterexample :
    ([("a", "1"), ("b", "2")] : List (String × String)).Perm [("b", "2"), ("a", "1")]
    ∧ print_style "s" none false none [] none [("a", "1"), ("b", "2")] (mkState true)
      ≠ print_style "s" none false none [] none [("b", "2"), ("a", "1")] (mkState true) := by
  refine ⟨List.Perm.swap ("b", "2") ("a", "1") [], fun h => ?_⟩
  exact absurd (congrArg State.out h) (by decide)

/-- C2 (amended): in comparable mode the motion-language on-handler
iteration is storage-order independent: two permuted handler lists with
pairwise distinct recorded lines render identically through
`print_atl_rawon`. -/
theorem C2_rawon_order_independence (h1 h2 : List (String × AtlBlock)) (s : State)
    (hperm : h1.Perm h2)
    (hnd : h1.Pairwise (fun x y => x.2.loc.2 ≠ y.2.loc.2))
    (hc : s.comparable = true) :
    print_atl_rawon h1 s = print_atl_rawon h2 s := by
  have hsort := mergeSort_eq_of_perm h1 h2 hperm hnd
  simp only [print_atl_rawon, hc, if_true, hsort]

/-- Witness for C2 (amended) on a two-handler map stored in reversed order. -/
theorem C2_rawon_order_independence_witness :
    print_atl_rawon
        [("b", AtlBlock.mk ("f", 9) [Node.RawTime ("f", 9) "1"]),
         ("a", AtlBlock.mk ("f", 4) [Node.RawTime ("f", 4) "2"])] (mkState true)
      = print_atl_rawon
        [("a", AtlBlock.mk ("f", 4) [Node.RawTime ("f", 4) "2"]),
         ("b", AtlBlock.mk ("f", 9) [Node.RawTime ("f", 9) "1"])] (mkState true) := by
  exact C2_rawon_order_independence _ _ (mkState true)
    (List.Perm.swap _ _ _)
    (by
      constructor
      · intro y hy
        simp only [List.mem_singleton] at hy
        subst hy
        simp [AtlBlock.loc]
      · simp)
    rfl

/-- C3: the indentation depth of the traversal state after successfully
rendering any block, any motion-language block, or any single node equals
its value before. -/
theorem C3_indentation_depth_invariant :
    (∀ (blk : List Node) (extra : Nat) (s s' : State),
        print_nodes blk extra s = .ok s' → s'.indent_level = s.indent_level)
    ∧ (∀ (b : AtlBlock) (s s' : State),
        print_atl b s = .ok s' → s'.indent_level = s.indent_level)
    ∧ (∀ (n : Node) (s s' : State),
        print_node n s = .ok s' → s'.indent_level = s.indent_level) :=
  ⟨fun blk extra s s' h => print_nodes_inv blk extra s s' h,
   fun b s s' h => print_atl_inv b s s' h,
   fun n s s' h => print_node_inv n s s' h⟩

/-- Witness for C3 on a concrete one-statement block. -/
theorem C3_indentation_depth_invariant_witness :
    print_nodes [Node.Pass 1] 0 (mkState true)
      = .ok { mkState true with out := "pass", linenumber := 1 }
    ∧ ({ mkState true with out := "pass", linenumber := 1 } : State).indent_level
      = (mkState true).indent_level := by
  have hrun : print_nodes [Node.Pass 1] 0 (mkState true)
      = .ok { mkState true with out := "pass", linenumber := 1 } := by
    simp [print_nodes, print_nodes_list, print_node, node_advance_line,
      nodeLinenumber, advance_to_line, print_pass, isCallNode, indent,
      at_line_start, write, mkState, bind, Except.bind, String.join]
  exact ⟨hrun, C3_indentation_depth_invariant.1 _ _ _ _ hrun⟩

/-- C4 counterexample: the dialogue node defers itself although the
following menu's sole (and first) choice has the literal condition "True",
i.e. carries no conditional guard; the code tests the choice's block for
presence (`items[0][2] is not None`), not its condition. -/
theorem C4_true_condition_counterexample :
    (match [("a", "True", some [Node.Pass 3])] with
      | (_, cnd, _) :: _ => cnd
      | [] => "") = "True"
    ∧ print_say ⟨some "e", "hi", false, none, none, 1⟩ false
        { mkState false with
          block := [Node.Say ⟨some "e", "hi", false, none, none, 1⟩,
                    Node.Menu 2 [("a", "True", some [Node.Pass 3])] none none],
          index := 0 }
      = .ok { mkState false with
              block := [Node.Say ⟨some "e", "hi", false, none, none, 1⟩,
                        Node.Menu 2 [("a", "True", some [Node.Pass 3])] none none],
              index := 0,
              say_inside_menu := some ⟨some "e", "hi", false, none, none, 1⟩ } :=
  ⟨rfl, rfl⟩

/-- C4 (amended): a dialogue node defers itself (stores itself in
`say_inside_menu` and renders nothing) exactly under `say_defers`:
interaction off, a speaker present, no with-clause, no attributes, and the
immediately following sibling a menu whose first choice carries a present
block, subject to the comparable-mode line-order check; in every other case
it renders immediately in place.  The hypothesis excludes the next sibling
being a menu with an empty choice list, on which the code raises an
IndexError instead. -/
theorem C4_say_deferral (d : SayData) (s : State)
    (hne : ∀ mln mw ms, s.block[s.index + 1]? ≠ some (Node.Menu mln [] mw ms)) :
    (say_defers d s = true →
        print_say d false s = .ok { s with say_inside_menu := some d })
    ∧ (say_defers d s = false →
        print_say d false s = .ok (print_say_render d false s)) := by
  obtain ⟨who, what, interact, attributes, with_, dln⟩ := d
  cases interact with
  | true =>
      constructor
      · intro hd
        simp [say_defers] at hd
      · intro hd
        simp [print_say]
  | false =>
  cases who with
  | none =>
      constructor
      · intro hd
        simp [say_defers] at hd
      · intro hd
        simp [print_say]
  | some w =>
  cases with_ with
  | some wexpr =>
      constructor
      · intro hd
        simp [say_defers] at hd
      · intro hd
        simp [print_say]
  | none =>
  cases attributes with
  | some attrs =>
      constructor
      · intro hd
        simp [say_defers] at hd
      · intro hd
        simp [print_say]
  | none =>
  rcases hq : s.block[s.index + 1]? with _ | nd
  · have hlen : ¬(s.index + 1 < s.block.length) := by
      intro hl
      rw [List.getElem?_eq_getElem hl] at hq
      cases hq
    constructor
    · intro hd
      simp [say_defers, hq] at hd
    · intro hd
      simp [print_say, hq, hlen]
  · have hlen : s.index + 1 < s.block.length := by
      by_contra hl
      rw [List.getElem?_eq_none (Nat.le_of_not_lt hl)] at hq
      cases hq
    cases nd
    case Menu mln items mw ms =>
        cases items with
        | nil => exact absurd hq (hne mln mw ms)
        | cons it rest =>
            obtain ⟨l, cnd, blk⟩ := it
            cases blk with
            | none =>
                constructor
                · intro hd
                  simp [say_defers, hq] at hd
                · intro hd
                  simp [print_say, hq, hlen]
            | some b =>
                by_cases hscb : should_come_before s.comparable
                    (.Say ⟨some w, what, false, none, none, dln⟩)
                    (.Menu mln ((l, cnd, some b) :: rest) mw ms) = true
                · constructor
                  · intro hd
                    simp [say_defers, hq, hscb] at hd
                  · intro hd
                    simp [print_say, hq, hlen, hscb]
                · constructor
                  · intro hd
                    simp [print_say, hq, hlen, hscb]
                  · intro hd
                    simp [say_defers, hq, hscb] at hd
    all_goals
      constructor
    all_goals
      intro hd
    all_goals
      try simp [print_say, hq, hlen]
    all_goals
      simp [say_defers, hq] at hd

/-- Witness for C4 (amended) on the concrete deferring input. -/
theorem C4_say_deferral_witness :
    print_say ⟨some "e", "hi", false, none, none, 1⟩ false
        { mkState false with
          block := [Node.Say ⟨some "e", "hi", false, none, none, 1⟩,
                    Node.Menu 2 [("a", "True", some [Node.Pass 3])] none none],
          index := 0 }
      = .ok { mkState false with
              block := [Node.Say ⟨some "e", "hi", false, none, none, 1⟩,
                        Node.Menu 2 [("a", "True", some [Node.Pass 3])] none none],
              index := 0,
              say_inside_menu := some ⟨some "e", "hi", false, none, none, 1⟩ } := by
  exact (C4_say_deferral ⟨some "e", "hi", false, none, none, 1⟩ _
    (by intro mln mw ms; simp)).1 (by decide)

/-- C5 counterexample: `print_hide` does not consume an armed pairing
register: it neither renders a `with` clause nor marks the register
consumed (it stays armed). -/
theorem C5_hide_counterexample :
    print_hide ⟨["x"], none, none, [], "master", none, []⟩
        { mkState true with paired_with := .armed "A" }
      = .ok { mkState true with paired_with := .armed "A", out := "hide x" } :=
  rfl

/-- C5 (amended): only the show and scene directives consume an armed
pairing register, rendering `with <expr>` inline on their own line and
marking the register consumed; hide and show-layer leave the register
untouched. -/
theorem C5_pending_with_consumers (n e : String) (s : State) (he : e ≠ "") :
    (s.paired_with = .armed e →
        print_show ⟨[n], none, none, [], "master", none, []⟩ none s
          = .ok { write (write (write (write (indent s) "show ") n) " ")
                    ("with " ++ e)
                  with paired_with := .consumed })
    ∧ (∀ layer, s.paired_with = .armed e →
        print_scene (some ⟨[n], none, none, [], "master", none, []⟩) layer none s
          = .ok { write (write (write (write (write (indent s) "scene") " ") n) " ")
                    ("with " ++ e)
                  with paired_with := .consumed })
    ∧ (∀ (spec : ImSpec) (t : State) t', print_hide spec t = .ok t' →
        t'.paired_with = t.paired_with)
    ∧ (∀ (layer : String) (at_list : List String) (t : State) t',
        print_showlayer layer at_list none t = .ok t' →
        t'.paired_with = t.paired_with) := by
  refine ⟨?_, ?_, ?_, ?_⟩
  · intro hp
    simp only [print_show, bind]
    have himspec : print_imspec ⟨[n], none, none, [], "master", none, []⟩
        (write (indent s) "show ")
        = .ok (write (write (indent s) "show ") n, false) := by
      simp [print_imspec, intercalate_single]
    rw [himspec]
    simp only [Except.bind]
    have htr : (write (write (indent s) "show ") n).paired_with
        = PairedWith.armed e := by
      simp [write_paired_with, indent_paired_with, hp]
    simp only [consume_paired_with, htr, PairedWith.truthy, PairedWith.str, he,
      Bool.not_false]
    simp [he]
  · intro layer hp
    simp only [print_scene, bind]
    have himspec : print_imspec ⟨[n], none, none, [], "master", none, []⟩
        (write (write (indent s) "scene") " ")
        = .ok (write (write (write (indent s) "scene") " ") n, false) := by
      simp [print_imspec, intercalate_single]
    rw [himspec]
    simp only [Except.bind, pure, Except.pure]
    have htr : (write (write (write (indent s) "scene") " ") n).paired_with
        = PairedWith.armed e := by
      simp [write_paired_with, indent_paired_with, hp]
    simp only [consume_paired_with, htr, PairedWith.truthy, PairedWith.str, he,
      Bool.not_false]
    simp [he]
  · intro spec t t' h
    simp only [print_hide, bind] at h
    obtain ⟨⟨t1, tr⟩, h1, h2⟩ := except_bind_ok h
    have e1 := print_imspec_paired_with spec _ t1 tr h1
    have h3 : Except.ok t1 = Except.ok t' := h2
    simp only [Except.ok.injEq] at h3
    subst h3
    simpa [write_paired_with, indent_paired_with] using e1
  · intro layer at_list t t' h
    simp only [print_showlayer] at h
    split at h
    all_goals simp only [Except.ok.injEq] at h
    all_goals subst h
    all_goals simp [write_paired_with, indent_paired_with]

/-- Witness for C5 (amended): a show consuming the armed register, and a
hide leaving it unchanged. -/
theorem C5_pending_with_consumers_witness :
    print_show ⟨["x"], none, none, [], "master", none, []⟩ none
        { mkState true with paired_with := .armed "A" }
      = .ok { write (write (write (write
                (indent { mkState true with paired_with := .armed "A" }) "show ")
                "x") " ") ("with " ++ "A")
              with paired_with := .consumed }
    ∧ ({ mkState true with paired_with := .armed "A", out := "hide x" } : State).paired_with
      = ({ mkState true with paired_with := .armed "A" } : State).paired_with := by
  constructor
  · exact (C5_pending_with_consumers "x" "A"
      { mkState true with paired_with := .armed "A" } (by decide)).1 rfl
  · exact (C5_pending_with_consumers "x" "A"
      { mkState true with paired_with := .armed "A" } (by decide)).2.2.1
      ⟨["x"], none, none, [], "master", none, []⟩
      { mkState true with paired_with := .armed "A" } _ rfl

/-- C6 counterexample: a default-priority wrapper whose recorded line (5) is
later than its single declaration child's (3) is collapsed to just the
declaration under comparable mode, not kept explicit as the claim states. -/
theorem C6_wrapper_line_counterexample :
    3 < 5
    ∧ print_node (Node.Init 5 0 [Node.Define 3 none "x" "3"]) (mkState true)
      = .ok { mkState true with out := "define x = 3", linenumber := 3 } := by
  refine ⟨by decide, ?_⟩
  simp [print_node, node_advance_line, nodeLinenumber, advance_to_line,
    print_init, init_collapsible, init_is_translatestrings,
    isDefineTransformStyleNode, isScreenNode, isImageNode, isTranslateStringNode,
    should_come_before, print_nodes, print_nodes_list, print_define, indent,
    at_line_start, write, mkState, bind, Except.bind, String.join]

/-- C6 (amended): a default-priority wrapper with a single declaration child
renders as only the child, unless comparable mode is on and the wrapper's
recorded line is earlier than the child's, in which case the explicit
wrapper form is kept. -/
theorem C6_init_collapse_condition (wln cln : Nat) (store : Option String)
    (v c : String) (s : State) :
    (¬(s.comparable = true ∧ wln < cln) →
        print_init wln 0 [Node.Define cln store v c] s
          = print_nodes [Node.Define cln store v c] 0 s)
    ∧ (s.comparable = true ∧ wln < cln →
        print_init wln 0 [Node.Define cln store v c] s
          = print_nodes [Node.Define cln store v c] 1
              (write (write (indent s) "init") ":")) := by
  constructor
  · intro hn
    have hcoll : init_collapsible s.comparable wln 0 [Node.Define cln store v c]
        = true := by
      rcases hcmp : s.comparable
      · simp [init_collapsible, isDefineTransformStyleNode, isScreenNode,
          isImageNode, should_come_before, nodeLinenumber]
      · have hlt : ¬wln < cln := fun hl => hn ⟨hcmp, hl⟩
        simp [init_collapsible, isDefineTransformStyleNode, isScreenNode,
          isImageNode, should_come_before, nodeLinenumber, hlt]
    simp only [print_init.eq_def, hcoll]
    simp
  · rintro ⟨hc, hlt⟩
    have hcoll : init_collapsible s.comparable wln 0 [Node.Define cln store v c]
        = false := by
      simp [init_collapsible, isDefineTransformStyleNode, isScreenNode,
        isImageNode, should_come_before, nodeLinenumber, hc, hlt]
    have htx : init_is_translatestrings 0 [Node.Define cln store v c] = false := by
      simp [init_is_translatestrings, isTranslateStringNode]
    have hge : ¬wln ≥ cln := by omega
    simp only [print_init.eq_def, hcoll, htx]
    simp [hge, nodeLinenumber]

/-- Witness for C6 (amended) at a later wrapper line (collapse) and an
earlier wrapper line in comparable mode (explicit form kept). -/
theorem C6_init_collapse_condition_witness :
    print_init 5 0 [Node.Define 3 none "x" "3"] (mkState true)
      = print_nodes [Node.Define 3 none "x" "3"] 0 (mkState true)
    ∧ print_init 2 0 [Node.Define 3 none "x" "3"] (mkState true)
      = print_nodes [Node.Define 3 none "x" "3"] 1
          (write (write (indent (mkState true)) "init") ":") :=
  ⟨(C6_init_collapse_condition 5 3 none "x" "3" (mkState true)).1 (by decide),
   (C6_init_collapse_condition 2 3 none "x" "3" (mkState true)).2 ⟨rfl, by decide⟩⟩

/-- C7 counterexample: an empty motion block with the sentinel location
`('', 0)` still renders `pass` in non-comparable mode, not nothing. -/
theorem C7_sentinel_pass_counterexample :
    print_atl (AtlBlock.mk ("", 0) []) (mkState false)
      = .ok { mkState false with out := "    pass" }
    ∧ ("    pass" : String) ≠ "" := by
  refine ⟨?_, by decide⟩
  simp [print_atl, advance_to_line, mkState, indent, at_line_start, write,
    String.join]

/-- C7 (amended): an empty motion block renders a single `pass` line unless
comparable mode is on and its location is the sentinel `('', 0)`, in which
case it renders nothing; a non-empty motion block renders through its
statements and never takes the `pass` path. -/
theorem C7_empty_atl_pass (loc : String × Nat) (s : State) :
    (¬(s.comparable = true ∧ loc = ("", 0)) →
        print_atl (.mk loc []) s
          = .ok { write (indent { advance_to_line s loc.2 with
                    indent_level := s.indent_level + 1 }) "pass"
                  with indent_level := s.indent_level })
    ∧ (s.comparable = true ∧ loc = ("", 0) →
        print_atl (.mk loc []) s
          = .ok { advance_to_line s loc.2 with indent_level := s.indent_level })
    ∧ (∀ (c : Node) (rest : List Node),
        print_atl (.mk loc (c :: rest)) s
          = (print_nodes (c :: rest) 0 { advance_to_line s loc.2 with
              indent_level := s.indent_level + 1 }).map
              (fun s2 => { s2 with indent_level := s2.indent_level - 1 })) := by
  refine ⟨?_, ?_, ?_⟩
  · intro hn
    simp only [print_atl]
    split
    · simp [advance_indent_level, write_indent_level, indent_indent_level]
    · rename_i hcond
      exfalso
      apply hn
      simp only [Bool.or_eq_true, Bool.not_eq_true', decide_eq_true_eq,
        advance_comparable] at hcond
      push_neg at hcond
      exact ⟨Bool.ne_false_iff.mp hcond.1, hcond.2⟩
  · rintro ⟨hc, rfl⟩
    simp only [print_atl]
    split
    · rename_i hcond
      exfalso
      simp [advance_comparable, hc] at hcond
    · simp [advance_indent_level]
  · intro c rest
    simp only [print_atl, bind]
    have hrw : ({ advance_to_line s loc.2 with
          indent_level := (advance_to_line s loc.2).indent_level + 1 } : State)
        = { advance_to_line s loc.2 with indent_level := s.indent_level + 1 } := by
      simp [advance_indent_level]
    rw [hrw]
    cases hr : print_nodes (c :: rest) 0
        { advance_to_line s loc.2 with indent_level := s.indent_level + 1 } with
    | error e => simp [Except.map, Except.bind]
    | ok s2 => simp [Except.map, Except.bind]

/-- Witness for C7 (amended): the sentinel block rendering `pass` in
non-comparable mode and nothing in comparable mode. -/
theorem C7_empty_atl_pass_witness :
    print_atl (AtlBlock.mk ("", 0) []) (mkState false)
      = .ok { write (indent { advance_to_line (mkState false) 0 with
                indent_level := (mkState false).indent_level + 1 }) "pass"
              with indent_level := (mkState false).indent_level }
    ∧ print_atl (AtlBlock.mk ("", 0) []) (mkState true)
      = .ok { advance_to_line (mkState true) 0 with
              indent_level := (mkState true).indent_level } := by
  constructor
  · exact (C7_empty_atl_pass ("", 0) (mkState false)).1 (by decide)
  · exact (C7_empty_atl_pass ("", 0) (mkState true)).2.1 ⟨rfl, rfl⟩

/-- C8: on a pairing mismatch the raised exception reports the stale value
of the pairing register (`False`, it has not been set yet) and the paired
transition node's own expression (`'None'`), not the expected pairing
expression "A" versus the actual sibling expression "B", and no line
number. -/
theorem C8_pairing_error_message :
    print_with "None" (some "A")
      { mkState true with
        block := [Node.With 1 "None" (some "A"),
                  Node.Show 2 ⟨["eileen"], none, none, [], "master", none, []⟩ none,
                  Node.With 3 "B" none],
        index := 0 }
      = .error (.exception "Unmatched paired with False != \x27None\x27") :=
  rfl

/-- C9: rendering an embedded-code (python) node whose raw code source is
the empty string fails with an out-of-bounds string access; for a non-empty
source the branch selection is total: when the first character is not a
newline the single-line `$ <code>` form is produced, and rendering never
fails. -/
theorem C9_python_empty_source (hide early : Bool) (s : State) :
    print_python "" hide early s = .error .indexError
    ∧ (∀ code : String, code ≠ "" → code.front ≠ '\n' →
        print_python code hide early s = .ok (write (indent s) ("$ " ++ code)))
    ∧ (∀ code : String, code ≠ "" → ∀ err,
        print_python code hide early s ≠ .error err) := by
  refine ⟨by simp [print_python], ?_, ?_⟩
  · intro code hc hnl
    simp [print_python, hc, hnl]
  · intro code hc err
    simp only [print_python, if_neg hc]
    split <;> simp

/-- Witness for C9 at concrete sources. -/
theorem C9_python_empty_source_witness :
    print_python "" false false (mkState true) = .error .indexError
    ∧ print_python "x = 1" false false (mkState true)
        = .ok (write (indent (mkState true)) "$ x = 1")
    ∧ print_python "\nx = 1" false false (mkState true) ≠ .error .indexError := by
  refine ⟨(C9_python_empty_source false false (mkState true)).1, ?_, ?_⟩
  · have := (C9_python_empty_source false false (mkState true)).2.1 "x = 1"
      (by decide) (by decide)
    simpa using this
  · exact (C9_python_empty_source false false (mkState true)).2.2 "\nx = 1"
      (by decide) .indexError

/-- C10: a menu choice entry whose block is absent renders only its quoted,
escaped label on one line: its condition is never rendered (the result does
not depend on it), and no colon or sub-block is emitted. -/
theorem C10_menu_choice_without_block (label condition : String) (s : State) :
    print_menu_items [(label, condition, none)] s
      = .ok (write (indent s) ("\"" ++ string_escape label ++ "\"")) := by
  simp [print_menu_items, pure, Except.pure, bind, Except.bind]
